import Mathlib

/-!
# MidiJack: message codec, packet parser, inbound queue and device registry

A shallow embedding of the two MidiJack plugin backends:

* `MidiJack.Xcode` follows `Xcode/MidiJackPlugin/PluginEntry.cpp` (Core MIDI,
  notification-driven reset),
* `MidiJack.VisualStudio` follows `VisualStudio/MidiJackPlugin/MidiJackPlugin.cpp`
  (WinMM, poll-and-diff refresh).

Conventions.  Bytes (`uint8_t`, `Byte`) are natural numbers; the places where
the C++ code narrows a wider integer are written with an explicit `%`.  The
global variables of each backend are the fields of a `State` record that the
functions pass along.  Every answer of the operating system is read from an
`OS` record given as an argument, and every function that talks to the
operating system also returns the list of calls it issued, in order.  The
functions are modelled as run by one thread at a time (the locks are not
modelled).
-/

namespace MidiJack

/-- Conversion of an unsigned value to a signed 32-bit integer (`SInt32`,
`MIDIUniqueID`): the low 32 bits, read in two's complement. -/
def toSInt32 (n : Nat) : Int :=
  if n % 2 ^ 32 < 2 ^ 31 then ((n % 2 ^ 32 : Nat) : Int) else ((n % 2 ^ 32 : Nat) : Int) - 2 ^ 32

/-- Conversion of a signed integer to `uint32_t`: the value modulo `2^32`. -/
def toUInt32 (i : Int) : Nat :=
  (i % 2 ^ 32).toNat

/-- Resizing of a `std::vector` to `n` cells: extra cells are dropped, missing
cells are value-initialised to 0. -/
def resize (v : List Int) (n : Nat) : List Int :=
  v.take n ++ List.replicate (n - v.length) 0

/-! ## The Core MIDI backend (`PluginEntry.cpp`) -/

namespace Xcode

/-- Core MIDI's `MIDIUniqueID`, an `SInt32`. -/
abbrev MIDIUniqueID := Int

/-- The class `MidiMessage` of `PluginEntry.cpp`: `endpoint_`, `status_` and the
two cells of `data_`. -/
structure MidiMessage where
  endpoint_ : MIDIUniqueID
  status_ : Nat
  data_0 : Nat
  data_1 : Nat
deriving DecidableEq, Repr

namespace MidiMessage

/-- The constructor `MidiMessage(endpoint, status)`: both data cells start at 0. -/
def new (endpoint : MIDIUniqueID) (status : Nat) : MidiMessage :=
  { endpoint_ := endpoint, status_ := status, data_0 := 0, data_1 := 0 }

/-- The method `SetData(offs, byte)`: `if (offs < 2) data_[offs] = byte;`.  The
callers pass `offs >= 0` only (a loop counter that starts at 0, or the
constants 0 and 1). -/
def SetData (m : MidiMessage) (offs : Nat) (byte : Nat) : MidiMessage :=
  if offs < 2 then
    (if offs = 0 then { m with data_0 := byte } else { m with data_1 := byte })
  else m

/-- The method `Encode64Bit()`: the endpoint converted to `uint32_t`, then the
three bytes or-ed in at bits 32, 40 and 48. -/
def Encode64Bit (m : MidiMessage) : Nat :=
  let ul := toUInt32 m.endpoint_
  let ul := ul ||| (m.status_ <<< 32)
  let ul := ul ||| (m.data_0 <<< 40)
  let ul := ul ||| (m.data_1 <<< 48)
  ul

end MidiMessage

/-- A Core MIDI packet: `length` valid bytes in `data`. -/
structure MIDIPacket where
  data : List Nat
deriving DecidableEq, Repr

/-- The field `packet->length`. -/
def MIDIPacket.length (packet : MIDIPacket) : Nat :=
  packet.data.length

/-- Why a run of the packet parser has no defined result. -/
inductive ReadError where
  /-- A read of `packet->data[index]` with `index` not below `packet->length`. -/
  | outOfRange (index : Nat)
  /-- A loop of the model used up its iteration budget. -/
  | outOfFuel
deriving DecidableEq, Repr

/-- The read `packet->data[i]`, defined for `i < packet->length` only. -/
def MIDIPacket.read (packet : MIDIPacket) (i : Nat) : Except ReadError Nat :=
  match packet.data[i]? with
  | some b => .ok b
  | none => .error (.outOfRange i)

/-- The test `packet->data[i] == v`. -/
def MIDIPacket.byteIs (packet : MIDIPacket) (i : Nat) (v : Nat) : Except ReadError Bool :=
  match packet.read i with
  | .ok b => .ok (b == v)
  | .error e => .error e

/-- The operator `&&` of C++ on tests that read memory: the right operand is
evaluated only when the left one is true. -/
def cAnd (a b : Except ReadError Bool) : Except ReadError Bool :=
  match a with
  | .ok true => b
  | .ok false => .ok false
  | .error e => .error e

/-- The inner loop of `MIDIReadProc`,
`for (int dc = 0; offs < packet->length && (packet->data[offs] < 0x80); dc++, offs++)
   message.SetData(dc, packet->data[offs]);`
run for at most `fuel` tests of its condition.  It returns the final `offs` and
the message. -/
def dataLoop (packet : MIDIPacket) :
    Nat → Nat → Nat → MidiMessage → Except ReadError (Nat × MidiMessage)
  | 0, _, _, _ => .error .outOfFuel
  | fuel + 1, dc, offs, message =>
    if offs < packet.length then
      match packet.read offs with
      | .error e => .error e
      | .ok b =>
        if b < 0x80 then
          dataLoop packet fuel (dc + 1) (offs + 1) (message.SetData dc b)
        else .ok (offs, message)
    else .ok (offs, message)

/-- The loop `for (int offs = 0; offs < packet->length;) { ... }` of
`MIDIReadProc`, entered at `offs`, run for at most `fuel` tests of its
condition: one message per round, pushed at the back of the queue. -/
def messageLoop (endpoint_id : MIDIUniqueID) (packet : MIDIPacket) :
    Nat → Nat → List MidiMessage → Except ReadError (List MidiMessage)
  | 0, _, _ => .error .outOfFuel
  | fuel + 1, offs, queue =>
    if offs < packet.length then
      match packet.read offs with
      | .error e => .error e
      | .ok status =>
        match dataLoop packet (packet.length + 1) 0 (offs + 1)
            (MidiMessage.new endpoint_id status) with
        | .error e => .error e
        | .ok (offs1, message) => messageLoop endpoint_id packet fuel offs1 (queue ++ [message])
    else .ok queue

/-- The test `packet->data[0] == 0xf0 && packet->data[packet->length - 1] == 0xf7`. -/
def isSysexFrame (packet : MIDIPacket) : Except ReadError Bool :=
  cAnd (packet.byteIs 0 0xf0) (packet.byteIs (packet.length - 1) 0xf7)

/-- The test on `packet->data[1]` to `packet->data[4]` (teenage engineering,
videolab). -/
def hasSignature (packet : MIDIPacket) : Except ReadError Bool :=
  cAnd (cAnd (cAnd (packet.byteIs 1 0x00) (packet.byteIs 2 0x20)) (packet.byteIs 3 0x76))
    (packet.byteIs 4 0x3)

/-- The body of the packet loop of `MIDIReadProc` for one packet: the queue
after the packet is handled. -/
def processPacket (endpoint_id : MIDIUniqueID) (packet : MIDIPacket)
    (queue : List MidiMessage) : Except ReadError (List MidiMessage) :=
  match isSysexFrame packet with
  | .error e => .error e
  | .ok true =>
    match hasSignature packet with
    | .error e => .error e
    | .ok true =>
      match packet.read 5 with
      | .error e => .error e
      | .ok b5 =>
        match packet.read 6 with
        | .error e => .error e
        | .ok b6 =>
          .ok (queue ++ [((MidiMessage.new endpoint_id 0xf0).SetData 0 b5).SetData 1 b6])
    | .ok false => .ok queue
  | .ok false =>
    match packet.read 0 with
    | .error e => .error e
    | .ok b0 =>
      if b0 ≥ 0x80 then messageLoop endpoint_id packet (packet.length + 1) 0 queue
      else .ok queue

/-- The packet loop of `MIDIReadProc`: the packets of the list, in order. -/
def processPackets (endpoint_id : MIDIUniqueID) :
    List MIDIPacket → List MidiMessage → Except ReadError (List MidiMessage)
  | [], queue => .ok queue
  | packet :: rest, queue =>
    match processPacket endpoint_id packet queue with
    | .error e => .error e
    | .ok queue1 => processPackets endpoint_id rest queue1

/-- The global variables of `PluginEntry.cpp`. -/
structure State where
  source_ids : List MIDIUniqueID
  destination_ids : List MIDIUniqueID
  message_queue : List MidiMessage
  midi_client : Nat
  midi_port_in : Nat
  midi_port_out : Nat
  reset_required : Bool
deriving DecidableEq, Repr

/-- The values the globals are initialised with. -/
def State.initial : State :=
  { source_ids := [], destination_ids := [], message_queue := [],
    midi_client := 0, midi_port_in := 0, midi_port_out := 0, reset_required := true }

/-- The callback `MIDIReadProc(packetList, readProcRefCon, srcConnRefCon)`.
The argument `endpoint_id` is the `MIDIUniqueID` that `srcConnRefCon` carries
(the one handed to `MIDIPortConnectSource`). -/
def MIDIReadProc (s : State) (packetList : List MIDIPacket) (endpoint_id : MIDIUniqueID) :
    Except ReadError State :=
  match processPackets endpoint_id packetList s.message_queue with
  | .error e => .error e
  | .ok queue => .ok { s with message_queue := queue }

/-- The callback `MIDIStateChangedHander`; `setupChanged` says whether
`message->messageID == kMIDIMsgSetupChanged`. -/
def MIDIStateChangedHander (s : State) (setupChanged : Bool) : State :=
  if setupChanged then { s with reset_required := true } else s

/-- The Core MIDI calls the backend issues. -/
inductive OSCall where
  | MIDIClientDispose (client : Nat)
  | MIDIClientCreate
  | MIDIInputPortCreate (client : Nat)
  | MIDIGetNumberOfSources
  | MIDIGetSource (i : Nat)
  | MIDIObjectGetIntegerProperty (object : Nat)
  | MIDIPortConnectSource (port source : Nat) (refCon : MIDIUniqueID)
  | MIDIOutputPortCreate (client : Nat)
  | MIDIGetNumberOfDestinations
  | MIDIGetDestination (i : Nat)
  | MIDIObjectFindByUniqueID (id : MIDIUniqueID)
  | MIDIObjectGetStringProperty (object : Nat)
  | MIDISend (port dest : Nat) (bytes : List Nat)
deriving DecidableEq, Repr

/-- The answers of Core MIDI about the source at one index. -/
structure SourceAnswer where
  /-- The result of `MIDIGetSource(i)`, 0 when there is none. -/
  endpoint : Nat
  /-- The unique ID read by `MIDIObjectGetIntegerProperty`, `none` when the call
  does not return `noErr`. -/
  uniqueID : Option MIDIUniqueID
  /-- Whether `MIDIPortConnectSource` returns `noErr`. -/
  connect : Bool

/-- The answers of Core MIDI about the destination at one index. -/
structure DestinationAnswer where
  /-- The result of `MIDIGetDestination(i)`, 0 when there is none. -/
  endpoint : Nat
  /-- The unique ID read by `MIDIObjectGetIntegerProperty`, `none` when the call
  does not return `noErr`. -/
  uniqueID : Option MIDIUniqueID

/-- The answers of Core MIDI during one boundary call. -/
structure OS where
  /-- The client made by `MIDIClientCreate`, `none` when it does not return `noErr`. -/
  clientCreate : Option Nat
  /-- The port made by `MIDIInputPortCreate`, `none` on an error. -/
  inputPortCreate : Option Nat
  /-- One entry per source index; `MIDIGetNumberOfSources()` is the length. -/
  sources : List SourceAnswer
  /-- The port made by `MIDIOutputPortCreate`, `none` on an error. -/
  outputPortCreate : Option Nat
  /-- One entry per destination index; `MIDIGetNumberOfDestinations()` is the length. -/
  destinations : List DestinationAnswer
  /-- The object `MIDIObjectFindByUniqueID` finds; `none` when it returns an
  error, in which case it stores 0 in the object. -/
  findByUniqueID : MIDIUniqueID → Option Nat
  /-- The display name read by `MIDIObjectGetStringProperty`, `none` on an error. -/
  displayName : Nat → Option String

/-- What a function that talks to Core MIDI hands back: its return value, the
globals afterwards and the calls it issued. -/
structure Outcome (α : Type) where
  ret : α
  state : State
  calls : List OSCall

/-- The source loop of `ResetIfRequired`, entered at index `i` with the
answers for the indices from `i` on: whether it ran to its end, `source_ids`
afterwards, and the calls issued. -/
def sourceLoop (port : Nat) :
    List SourceAnswer → Nat → List MIDIUniqueID → Bool × List MIDIUniqueID × List OSCall
  | [], _, ids => (true, ids, [])
  | a :: rest, i, ids =>
    if a.endpoint = 0 then (false, ids, [.MIDIGetSource i])
    else
      match a.uniqueID with
      | none => (false, ids, [.MIDIGetSource i, .MIDIObjectGetIntegerProperty a.endpoint])
      | some id =>
        let ids1 := ids.set i id
        let calls := [.MIDIGetSource i, .MIDIObjectGetIntegerProperty a.endpoint,
          .MIDIPortConnectSource port a.endpoint id]
        if a.connect then
          let r := sourceLoop port rest (i + 1) ids1
          (r.1, r.2.1, calls ++ r.2.2)
        else (false, ids1, calls)

/-- The destination loop of `ResetIfRequired`, entered at index `i`. -/
def destinationLoop :
    List DestinationAnswer → Nat → List MIDIUniqueID → Bool × List MIDIUniqueID × List OSCall
  | [], _, ids => (true, ids, [])
  | a :: rest, i, ids =>
    if a.endpoint = 0 then (false, ids, [.MIDIGetDestination i])
    else
      match a.uniqueID with
      | none => (false, ids, [.MIDIGetDestination i, .MIDIObjectGetIntegerProperty a.endpoint])
      | some id =>
        let r := destinationLoop rest (i + 1) (ids.set i id)
        (r.1, r.2.1,
          [.MIDIGetDestination i, .MIDIObjectGetIntegerProperty a.endpoint] ++ r.2.2)

/-- The function `ResetIfRequired()`.  A create call that fails leaves its
output variable as it was. -/
def ResetIfRequired (os : OS) (s : State) : Outcome Bool :=
  if !s.reset_required then { ret := true, state := s, calls := [] }
  else
    let c0 : List OSCall := if s.midi_client ≠ 0 then [.MIDIClientDispose s.midi_client] else []
    match os.clientCreate with
    | none => { ret := false, state := s, calls := c0 ++ [.MIDIClientCreate] }
    | some client =>
      let s1 := { s with midi_client := client }
      let c1 := c0 ++ [.MIDIClientCreate, .MIDIInputPortCreate client]
      match os.inputPortCreate with
      | none => { ret := false, state := s1, calls := c1 }
      | some portIn =>
        let s2 := { s1 with midi_port_in := portIn }
        let r := sourceLoop portIn os.sources 0 (resize s2.source_ids os.sources.length)
        let s3 := { s2 with source_ids := r.2.1 }
        let c3 := c1 ++ [.MIDIGetNumberOfSources] ++ r.2.2
        if !r.1 then { ret := false, state := s3, calls := c3 }
        else
          let c4 := c3 ++ [.MIDIOutputPortCreate client]
          match os.outputPortCreate with
          | none => { ret := false, state := s3, calls := c4 }
          | some portOut =>
            let s4 := { s3 with midi_port_out := portOut }
            let d := destinationLoop os.destinations 0
              (resize s4.destination_ids os.destinations.length)
            let s5 := { s4 with destination_ids := d.2.1 }
            let c5 := c4 ++ [.MIDIGetNumberOfDestinations] ++ d.2.2
            if !d.1 then { ret := false, state := s5, calls := c5 }
            else { ret := true, state := { s5 with reset_required := false }, calls := c5 }

/-- The string `default_name` of `GetEndpointName`, also returned by the two
name functions when the reset fails. -/
def default_name : String := "(not ready)"

/-- The function `GetEndpointName(endpoint_id)`: the name and the calls issued.
The copy of the name into the 256-byte buffer is not modelled. -/
def GetEndpointName (os : OS) (endpoint_id : Nat) : String × List OSCall :=
  let id := toSInt32 endpoint_id
  match os.findByUniqueID id with
  | none => (default_name, [.MIDIObjectFindByUniqueID id])
  | some object =>
    match os.displayName object with
    | none =>
      (default_name, [.MIDIObjectFindByUniqueID id, .MIDIObjectGetStringProperty object])
    | some name => (name, [.MIDIObjectFindByUniqueID id, .MIDIObjectGetStringProperty object])

/-- The three bytes `SendMessage` puts in the packet: `((Byte *)&msg) + 4`,
length 3, on a little-endian machine. -/
def packetBytes (msg : Nat) : List Nat :=
  [(msg >>> 32) % 256, (msg >>> 40) % 256, (msg >>> 48) % 256]

/-- The function `SendMessage(msg)`: the calls it issues. -/
def SendMessage (os : OS) (s : State) (msg : Nat) : List OSCall :=
  let id := toSInt32 msg
  let object : Nat :=
    match os.findByUniqueID id with
    | some o => o
    | none => 0
  if object ≠ 0 then
    [.MIDIObjectFindByUniqueID id, .MIDISend s.midi_port_out object (packetBytes msg)]
  else [.MIDIObjectFindByUniqueID id]

/-- The exported `MidiJackCountSources()`. -/
def MidiJackCountSources (os : OS) (s : State) : Outcome Nat :=
  let r := ResetIfRequired os s
  if !r.ret then { ret := 0, state := r.state, calls := r.calls }
  else { ret := r.state.source_ids.length, state := r.state, calls := r.calls }

/-- The exported `MidiJackCountDestinations()`. -/
def MidiJackCountDestinations (os : OS) (s : State) : Outcome Nat :=
  let r := ResetIfRequired os s
  if !r.ret then { ret := 0, state := r.state, calls := r.calls }
  else { ret := r.state.destination_ids.length, state := r.state, calls := r.calls }

/-- The lookup shared by the two index functions: the bounds test
`index < 0 || index >= ids.size()` and the conversion of the ID to `uint32_t`. -/
def idAtIndex (ids : List MIDIUniqueID) (index : Int) : Nat :=
  if index < 0 ∨ index ≥ (ids.length : Int) then 0
  else
    match ids[index.toNat]? with
    | some id => toUInt32 id
    | none => 0

/-- The exported `MidiJackGetSourceIDAtIndex(index)`. -/
def MidiJackGetSourceIDAtIndex (os : OS) (s : State) (index : Int) : Outcome Nat :=
  let r := ResetIfRequired os s
  if !r.ret then { ret := 0, state := r.state, calls := r.calls }
  else { ret := idAtIndex r.state.source_ids index, state := r.state, calls := r.calls }

/-- The exported `MidiJackGetDestinationIDAtIndex(index)`. -/
def MidiJackGetDestinationIDAtIndex (os : OS) (s : State) (index : Int) : Outcome Nat :=
  let r := ResetIfRequired os s
  if !r.ret then { ret := 0, state := r.state, calls := r.calls }
  else { ret := idAtIndex r.state.destination_ids index, state := r.state, calls := r.calls }

/-- The exported `MidiJackGetSourceName(id)`. -/
def MidiJackGetSourceName (os : OS) (s : State) (id : Nat) : Outcome String :=
  let r := ResetIfRequired os s
  if !r.ret then { ret := "(not ready)", state := r.state, calls := r.calls }
  else
    let n := GetEndpointName os id
    { ret := n.1, state := r.state, calls := r.calls ++ n.2 }

/-- The exported `MidiJackGetDestinationName(id)`. -/
def MidiJackGetDestinationName (os : OS) (s : State) (id : Nat) : Outcome String :=
  let r := ResetIfRequired os s
  if !r.ret then { ret := "(not ready)", state := r.state, calls := r.calls }
  else
    let n := GetEndpointName os id
    { ret := n.1, state := r.state, calls := r.calls ++ n.2 }

/-- The exported `MidiJackDequeueIncomingData()`. -/
def MidiJackDequeueIncomingData (os : OS) (s : State) : Outcome Nat :=
  let r := ResetIfRequired os s
  if !r.ret then { ret := 0, state := r.state, calls := r.calls }
  else
    match r.state.message_queue with
    | [] => { ret := 0, state := r.state, calls := r.calls }
    | m :: rest =>
      { ret := m.Encode64Bit, state := { r.state with message_queue := rest }, calls := r.calls }

/-- The exported `MidiJackSendMessage(msg)`. -/
def MidiJackSendMessage (os : OS) (s : State) (msg : Nat) : Outcome Unit :=
  let r := ResetIfRequired os s
  if !r.ret then { ret := (), state := r.state, calls := r.calls }
  else { ret := (), state := r.state, calls := r.calls ++ SendMessage os r.state msg }

/-! ### The parser's result, as the specification words it -/

/-- The data bytes a message takes in: `SetData dc b` for the bytes of the
list in order, the counter starting at `dc`. -/
def absorb : Nat → MidiMessage → List Nat → MidiMessage
  | _, m, [] => m
  | dc, m, b :: bs => absorb (dc + 1) (m.SetData dc b) bs

/-- The specification's `data1` of a status byte followed by `rest`: the first
byte below `0x80` that directly follows, 0 when absent. -/
def specData1 : List Nat → Nat
  | b :: _ => if b < 0x80 then b else 0
  | [] => 0

/-- The specification's `data2` of a status byte followed by `rest`: the second
byte below `0x80` that directly follows, 0 when absent. -/
def specData2 : List Nat → Nat
  | b :: c :: _ => if b < 0x80 ∧ c < 0x80 then c else 0
  | _ => 0

/-- The specification's messages of a packet's bytes: one message for each
byte `>= 0x80`, in packet order, with the data bytes that directly follow it. -/
def specChannelMessages (e : MIDIUniqueID) : List Nat → List MidiMessage
  | [] => []
  | b :: rest =>
    if b ≥ 0x80 then
      { endpoint_ := e, status_ := b, data_0 := specData1 rest, data_1 := specData2 rest }
        :: specChannelMessages e rest
    else specChannelMessages e rest

/-! ### Concrete inputs -/

/-- The note-on packet `90 40 7F`. -/
def noteOnPacket : MIDIPacket :=
  { data := [0x90, 0x40, 0x7F] }

/-- The vendor sysex packet `F0 00 20 76 03 11 22 F7`. -/
def vendorPacket : MIDIPacket :=
  { data := [0xF0, 0x00, 0x20, 0x76, 0x03, 0x11, 0x22, 0xF7] }

/-- The six-byte frame `F0 00 20 76 03 F7`: the signature with no payload. -/
def shortVendorPacket : MIDIPacket :=
  { data := [0xF0, 0x00, 0x20, 0x76, 0x03, 0xF7] }

/-- Core MIDI answers in which `MIDIClientCreate` fails, there are no
endpoints and no object is found. -/
def OS.down : OS :=
  { clientCreate := none, inputPortCreate := none, sources := [],
    outputPortCreate := none, destinations := [],
    findByUniqueID := fun _ => none, displayName := fun _ => none }

/-! ### Words of the reset contract -/

/-- Whether every Core MIDI call about one source succeeds: the lookup gives
an endpoint, the unique-ID query and the port connect return `noErr`. -/
def SourceAnswer.succeeds (a : SourceAnswer) : Bool :=
  a.endpoint != 0 && a.uniqueID.isSome && a.connect

/-- Whether every Core MIDI call about one destination succeeds. -/
def DestinationAnswer.succeeds (a : DestinationAnswer) : Bool :=
  a.endpoint != 0 && a.uniqueID.isSome

/-- Whether every step of the reconstruction succeeds: client create, input
port create, every source, output port create, every destination. -/
def OS.allStepsSucceed (os : OS) : Bool :=
  os.clientCreate.isSome && os.inputPortCreate.isSome &&
    os.sources.all SourceAnswer.succeeds && os.outputPortCreate.isSome &&
    os.destinations.all DestinationAnswer.succeeds

/-- The unique IDs of the sources of Core MIDI, in enumeration order. -/
def OS.sourceIDs (os : OS) : List MIDIUniqueID :=
  os.sources.filterMap (fun a => a.uniqueID)

/-- The unique IDs of the destinations of Core MIDI, in enumeration order. -/
def OS.destinationIDs (os : OS) : List MIDIUniqueID :=
  os.destinations.filterMap (fun a => a.uniqueID)

/-- Whether a call is a transmit (`MIDISend`). -/
def OSCall.isSend : OSCall → Bool
  | .MIDISend _ _ _ => true
  | _ => false

/-- Core MIDI answers with two sources (unique IDs 11 and -12) and one
destination (unique ID 21, found as object 5), every call succeeding. -/
def OS.up : OS :=
  { clientCreate := some 1, inputPortCreate := some 2,
    sources := [{ endpoint := 3, uniqueID := some 11, connect := true },
                { endpoint := 4, uniqueID := some (-12), connect := true }],
    outputPortCreate := some 6,
    destinations := [{ endpoint := 5, uniqueID := some 21 }],
    findByUniqueID := fun id => if id = 21 then some 5 else none,
    displayName := fun _ => some "synth" }

/-! ### Runs of the queue -/

/-- The push of one message by an input callback: `message_queue.push(message)`. -/
def push (s : State) (m : MidiMessage) : State :=
  { s with message_queue := s.message_queue ++ [m] }

/-- Successive calls of `MidiJackDequeueIncomingData`, one per entry of the
list (the answers of Core MIDI during that call): the values returned, in
order, and the globals at the end. -/
def dequeueMany : List OS → State → List Nat × State
  | [], s => ([], s)
  | os :: rest, s =>
    let r := MidiJackDequeueIncomingData os s
    let r1 := dequeueMany rest r.state
    (r.ret :: r1.1, r1.2)

/-- Whether `ResetIfRequired` fails in none of the calls of `dequeueMany`. -/
def resetsSucceed : List OS → State → Bool
  | [], _ => true
  | os :: rest, s =>
    (ResetIfRequired os s).ret && resetsSucceed rest (MidiJackDequeueIncomingData os s).state

end Xcode

/-! ## The WinMM backend (`MidiJackPlugin.cpp`) -/

namespace VisualStudio

/-- The alias `InputHandle = HMIDIIN`: the pointer value of the handle. -/
abbrev InputHandle := Nat

/-- The alias `OutputHandle = HMIDIOUT`: the pointer value of the handle. -/
abbrev OutputHandle := Nat

/-- The alias `DeviceID = uint32_t`. -/
abbrev DeviceID := Nat

/-- The `_WIN64` variant of `InputHandleToID`: the low 32 bits of the pointer.
(The 32-bit variant is the same function on pointers below `2^32`.) -/
def InputHandleToID (handle : InputHandle) : DeviceID :=
  handle % 2 ^ 32

/-- The function `DeviceIDToInputHandle`: the ID, zero-extended to a pointer. -/
def DeviceIDToInputHandle (id : DeviceID) : InputHandle :=
  id

/-- The `_WIN64` variant of `OutputHandleToID`. -/
def OutputHandleToID (handle : OutputHandle) : DeviceID :=
  handle % 2 ^ 32

/-- The function `DeviceIDToOutputHandle`. -/
def DeviceIDToOutputHandle (id : DeviceID) : OutputHandle :=
  id

/-- The class `MidiMessage` of `MidiJackPlugin.cpp`; `endpoint_` is a `DeviceID`. -/
structure MidiMessage where
  endpoint_ : Nat
  status_ : Nat
  data1_ : Nat
  data2_ : Nat
deriving DecidableEq, Repr

namespace MidiMessage

/-- The constructor `MidiMessage(endpoint, rawData)`: the three members are
`uint8_t`, so each initialiser keeps the low 8 bits of its argument. -/
def new (endpoint : Nat) (rawData : Nat) : MidiMessage :=
  { endpoint_ := endpoint
    status_ := rawData % 256
    data1_ := (rawData >>> 8) % 256
    data2_ := (rawData >>> 16) % 256 }

/-- The method `Encode64Bit()` of the Windows backend. -/
def Encode64Bit (m : MidiMessage) : Nat :=
  let ul := m.endpoint_
  let ul := ul ||| (m.status_ <<< 32)
  let ul := ul ||| (m.data1_ <<< 40)
  let ul := ul ||| (m.data2_ <<< 48)
  ul

end MidiMessage

/-- The global variables of `MidiJackPlugin.cpp`.  The two stacks are lists
with the top first; the queue and the handle lists have the front first. -/
structure State where
  message_queue : List MidiMessage
  active_handles_in : List InputHandle
  active_handles_out : List OutputHandle
  handles_to_close_in : List InputHandle
  handles_to_close_out : List OutputHandle
deriving DecidableEq, Repr

/-- The values the globals are initialised with. -/
def State.initial : State :=
  { message_queue := [], active_handles_in := [], active_handles_out := [],
    handles_to_close_in := [], handles_to_close_out := [] }

/-- The message code `wMsg` a callback is called with, as far as the callbacks
tell codes apart. -/
inductive WMsg where
  | MIM_DATA
  | MIM_CLOSE
  | other (code : Nat)
deriving DecidableEq, Repr

/-- The WinMM calls the backend issues. -/
inductive OSCall where
  | midiInGetNumDevs
  | midiOutGetNumDevs
  | midiInOpen (index : Nat)
  | midiInStart (handle : InputHandle)
  | midiInClose (handle : InputHandle)
  | midiOutOpen (index : Nat)
  | midiOutClose (handle : OutputHandle)
  | midiOutShortMsg (handle : OutputHandle) (packet : Nat)
  | midiInGetDevCaps (id : Nat)
  | midiOutGetDevCaps (id : Nat)
deriving DecidableEq, Repr

/-- The answers of WinMM during one boundary call. -/
structure OS where
  /-- One entry per input device index (`midiInGetNumDevs()` is the length):
  `none` when `midiInOpen` fails, else the handle it stores and whether
  `midiInStart` succeeds on it. -/
  inputs : List (Option (InputHandle × Bool))
  /-- One entry per output device index (`midiOutGetNumDevs()` is the length):
  `none` when `midiOutOpen` fails, else the handle it stores. -/
  outputs : List (Option OutputHandle)
  /-- The cells of `caps.szPname` (wide characters, as numbers) that
  `midiInGetDevCaps` fills in, `none` when it does not return
  `MMSYSERR_NOERROR`. -/
  inCaps : Nat → Option (List Nat)
  /-- The cells of `caps.szPname` that `midiOutGetDevCaps` fills in, `none` when
  it does not return `MMSYSERR_NOERROR`. -/
  outCaps : Nat → Option (List Nat)

/-- What a function that talks to WinMM hands back: its return value, the
globals afterwards and the calls it issued. -/
structure Outcome (α : Type) where
  ret : α
  state : State
  calls : List OSCall

/-- The callback `MidiInProc(hMidiIn, wMsg, dwInstance, dwParam1, dwParam2)`. -/
def MidiInProc (s : State) (hMidiIn : InputHandle) (wMsg : WMsg) (dwParam1 : Nat) : State :=
  match wMsg with
  | .MIM_DATA =>
    let id := InputHandleToID hMidiIn
    let raw := dwParam1 % 2 ^ 32
    { s with message_queue := s.message_queue ++ [MidiMessage.new id raw] }
  | .MIM_CLOSE => { s with handles_to_close_in := hMidiIn :: s.handles_to_close_in }
  | .other _ => s

/-- The callback `MidiOutProc(hMidiOut, wMsg, dwInstance, dwParam1, dwParam2)`. -/
def MidiOutProc (s : State) (hMidiOut : OutputHandle) (wMsg : WMsg) : State :=
  match wMsg with
  | .MIM_CLOSE => { s with handles_to_close_out := hMidiOut :: s.handles_to_close_out }
  | _ => s

/-- The conversion `std::wstring name(caps.szPname); std::string(name.begin(),
name.end())`: the wide characters up to the first null, each narrowed to one
`char` (its low 8 bits).  A `std::string` is the list of its bytes. -/
def narrowName (szPname : List Nat) : List Nat :=
  (szPname.takeWhile (fun c => c != 0)).map (fun c => c % 256)

/-- The bytes of the string literal `"unknown"`. -/
def unknown_name : List Nat :=
  [0x75, 0x6E, 0x6B, 0x6E, 0x6F, 0x77, 0x6E]

/-- The function `GetSourceName(handle)`: the bytes of the `std::string` it
returns. -/
def GetSourceName (os : OS) (handle : InputHandle) : List Nat :=
  match os.inCaps handle with
  | some szPname => narrowName szPname
  | none => unknown_name

/-- The function `GetDestinationName(handle)`: the bytes of the `std::string` it
returns. -/
def GetDestinationName (os : OS) (handle : OutputHandle) : List Nat :=
  match os.outCaps handle with
  | some szPname => narrowName szPname
  | none => unknown_name

/-- The function `OpenSource(index)`, given the answer of WinMM for that index. -/
def OpenSource (answer : Option (InputHandle × Bool)) (s : State) (index : Nat) :
    State × List OSCall :=
  match answer with
  | none => (s, [.midiInOpen index])
  | some (handle, started) =>
    if started then
      ({ s with active_handles_in := s.active_handles_in ++ [handle] },
        [.midiInOpen index, .midiInStart handle])
    else (s, [.midiInOpen index, .midiInStart handle, .midiInClose handle])

/-- The function `OpenDestination(index)`, given the answer of WinMM for that index. -/
def OpenDestination (answer : Option OutputHandle) (s : State) (index : Nat) :
    State × List OSCall :=
  match answer with
  | none => (s, [.midiOutOpen index])
  | some handle =>
    ({ s with active_handles_out := s.active_handles_out ++ [handle] }, [.midiOutOpen index])

/-- The function `CloseSource(handle)`: `midiInClose`, then `list::remove`, which
erases every element equal to the handle. -/
def CloseSource (s : State) (handle : InputHandle) : State × List OSCall :=
  ({ s with active_handles_in := s.active_handles_in.filter (fun h => h != handle) },
    [.midiInClose handle])

/-- The function `CloseDestination(handle)`. -/
def CloseDestination (s : State) (handle : OutputHandle) : State × List OSCall :=
  ({ s with active_handles_out := s.active_handles_out.filter (fun h => h != handle) },
    [.midiOutClose handle])

/-- The loop `for (int i = 0; i < source_count; i++) OpenSource(i);`, entered at
index `i` with the answers for the indices from `i` on. -/
def openSources : List (Option (InputHandle × Bool)) → Nat → State → State × List OSCall
  | [], _, s => (s, [])
  | a :: rest, i, s =>
    let r := OpenSource a s i
    let r1 := openSources rest (i + 1) r.1
    (r1.1, r.2 ++ r1.2)

/-- The loop `for (int i = 0; i < destination_count; i++) OpenDestination(i);`. -/
def openDestinations : List (Option OutputHandle) → Nat → State → State × List OSCall
  | [], _, s => (s, [])
  | a :: rest, i, s =>
    let r := OpenDestination a s i
    let r1 := openDestinations rest (i + 1) r.1
    (r1.1, r.2 ++ r1.2)

/-- The function `OpenAllDevices()`. -/
def OpenAllDevices (os : OS) (s : State) : State × List OSCall :=
  let r := openSources os.inputs 0 s
  let r1 := openDestinations os.outputs 0 r.1
  (r1.1, [.midiInGetNumDevs] ++ r.2 ++ [.midiOutGetNumDevs] ++ r1.2)

/-- The loop `while (!handles_to_close_in.empty()) { CloseSource(top); pop(); }`,
by recursion on the stack it empties. -/
def closeSources : List InputHandle → State → State × List OSCall
  | [], s => ({ s with handles_to_close_in := [] }, [])
  | top :: rest, s =>
    let r := CloseSource s top
    let r1 := closeSources rest { r.1 with handles_to_close_in := rest }
    (r1.1, r.2 ++ r1.2)

/-- The loop `while (!handles_to_close_out.empty()) { CloseDestination(top); pop(); }`. -/
def closeDestinations : List OutputHandle → State → State × List OSCall
  | [], s => ({ s with handles_to_close_out := [] }, [])
  | top :: rest, s =>
    let r := CloseDestination s top
    let r1 := closeDestinations rest { r.1 with handles_to_close_out := rest }
    (r1.1, r.2 ++ r1.2)

/-- The function `RefreshDevices()`. -/
def RefreshDevices (os : OS) (s : State) : State × List OSCall :=
  let r := closeSources s.handles_to_close_in s
  let r1 := closeDestinations r.1.handles_to_close_out r.1
  let r2 := OpenAllDevices os r1.1
  (r2.1, r.2 ++ r1.2 ++ r2.2)

/-- The `DWORD packet = (msg >> 32);` of `SendMessage`. -/
def sendPacket (msg : Nat) : Nat :=
  (msg >>> 32) % 2 ^ 32

/-- The function `SendMessage(msg)`: the call it issues.  The cast
`(DeviceID)msg` keeps the low 32 bits. -/
def SendMessage (msg : Nat) : List OSCall :=
  let handle := DeviceIDToOutputHandle (msg % 2 ^ 32)
  let packet := sendPacket msg
  [.midiOutShortMsg handle packet]

/-- The exported `MidiJackCountSources()`. -/
def MidiJackCountSources (s : State) : Nat :=
  s.active_handles_in.length

/-- The exported `MidiJackCountDestinations()`. -/
def MidiJackCountDestinations (s : State) : Nat :=
  s.active_handles_out.length

/-- The exported `MidiJackGetSourceIDAtIndex(index)`:
`std::advance(itr, index)` from `begin()`, then `*itr`.  There is no bounds
test: moving before `begin()`, and reading at or past `end()`, are undefined
in C++, and the result is then `none`. -/
def MidiJackGetSourceIDAtIndex (s : State) (index : Int) : Option DeviceID :=
  if index < 0 then none
  else
    match s.active_handles_in[index.toNat]? with
    | some handle => some (InputHandleToID handle)
    | none => none

/-- The exported `MidiJackGetDestinationIDAtIndex(index)`; see
`MidiJackGetSourceIDAtIndex` for `none`. -/
def MidiJackGetDestinationIDAtIndex (s : State) (index : Int) : Option DeviceID :=
  if index < 0 then none
  else
    match s.active_handles_out[index.toNat]? with
    | some handle => some (OutputHandleToID handle)
    | none => none

/-- The exported `MidiJackGetSourceName(id)`. -/
def MidiJackGetSourceName (os : OS) (id : DeviceID) : List Nat :=
  GetSourceName os (DeviceIDToInputHandle id)

/-- The exported `MidiJackGetDestinationName(id)`. -/
def MidiJackGetDestinationName (os : OS) (id : DeviceID) : List Nat :=
  GetDestinationName os (DeviceIDToOutputHandle id)

/-- The exported `MidiJackDequeueIncomingData()`. -/
def MidiJackDequeueIncomingData (os : OS) (s : State) : Outcome Nat :=
  let r := RefreshDevices os s
  match r.1.message_queue with
  | [] => { ret := 0, state := r.1, calls := r.2 }
  | msg :: rest =>
    { ret := msg.Encode64Bit, state := { r.1 with message_queue := rest }, calls := r.2 }

/-- The exported `MidiJackSendMessage(msg)`. -/
def MidiJackSendMessage (s : State) (msg : Nat) : Outcome Unit :=
  { ret := (), state := s, calls := SendMessage msg }

/-- One thing that happens to the Windows backend: a call of `MidiInProc` or
`MidiOutProc` by WinMM, or a pass of `RefreshDevices` with the answers WinMM
gives during it. -/
inductive Event where
  | inProc (hMidiIn : InputHandle) (wMsg : WMsg) (dwParam1 : Nat)
  | outProc (hMidiOut : OutputHandle) (wMsg : WMsg)
  | refresh (os : OS)

/-- The effect of one event: the globals afterwards and the WinMM calls issued. -/
def step (s : State) : Event → State × List OSCall
  | .inProc h wMsg p => (MidiInProc s h wMsg p, [])
  | .outProc h wMsg => (MidiOutProc s h wMsg, [])
  | .refresh os => RefreshDevices os s

/-- The effect of a sequence of events, in order: the globals at the end and
all the WinMM calls issued. -/
def run : State → List Event → State × List OSCall
  | s, [] => (s, [])
  | s, e :: rest =>
    let r := step s e
    let r1 := run r.1 rest
    (r1.1, r.2 ++ r1.2)

/-! ### Runs of the queue -/

/-- The push of one message by `MidiInProc`: `message_queue.push(...)`. -/
def push (s : State) (m : MidiMessage) : State :=
  { s with message_queue := s.message_queue ++ [m] }

/-- Successive calls of `MidiJackDequeueIncomingData`, one per entry of the
list (the answers of WinMM during that call): the values returned, in order,
and the globals at the end. -/
def dequeueMany : List OS → State → List Nat × State
  | [], s => ([], s)
  | os :: rest, s =>
    let r := MidiJackDequeueIncomingData os s
    let r1 := dequeueMany rest r.state
    (r.ret :: r1.1, r1.2)

/-- WinMM answers with no device at all. -/
def OS.none : OS :=
  { inputs := [], outputs := [], inCaps := fun _ => Option.none,
    outCaps := fun _ => Option.none }

/-- WinMM answers with one input device: `midiInOpen` stores the handle 1 and
`midiInStart` fails on it. -/
def OS.failedStart : OS :=
  { inputs := [some (1, false)], outputs := [], inCaps := fun _ => Option.none,
    outCaps := fun _ => Option.none }

/-! ### Words of the close contract -/

/-- The handles of the answers to `midiInOpen` that open and start. -/
def startedOf (answers : List (Option (InputHandle × Bool))) : List InputHandle :=
  answers.filterMap (fun a =>
    match a with
    | some (h, true) => some h
    | _ => Option.none)

/-- The handles of the answers to `midiInOpen` that open but fail to start. -/
def failedOf (answers : List (Option (InputHandle × Bool))) : List InputHandle :=
  answers.filterMap (fun a =>
    match a with
    | some (h, false) => some h
    | _ => Option.none)

/-- The input handles WinMM opens and starts during one pass of
`RefreshDevices`, by device index. -/
def OS.started (os : OS) : List InputHandle :=
  startedOf os.inputs

/-- The input handles WinMM opens during one pass but fails to start; these are
closed by `OpenSource` right away. -/
def OS.failedStarts (os : OS) : List InputHandle :=
  failedOf os.inputs

/-- The output handles WinMM opens during one pass, by device index. -/
def OS.opened (os : OS) : List OutputHandle :=
  os.outputs.filterMap (fun a => a)

/-- The input handles of the `MIM_CLOSE` calls of `MidiInProc` in a sequence of
events, in order. -/
def closeNotesIn : List Event → List InputHandle
  | [] => []
  | .inProc h .MIM_CLOSE _ :: rest => h :: closeNotesIn rest
  | _ :: rest => closeNotesIn rest

/-- The output handles of the `MIM_CLOSE` calls of `MidiOutProc` in a sequence
of events, in order. -/
def closeNotesOut : List Event → List OutputHandle
  | [] => []
  | .outProc h .MIM_CLOSE :: rest => h :: closeNotesOut rest
  | _ :: rest => closeNotesOut rest

/-- The input handles that fail to start in the refresh passes of a sequence
of events. -/
def failedStartsOf : List Event → List InputHandle
  | [] => []
  | .refresh os :: rest => os.failedStarts ++ failedStartsOf rest
  | _ :: rest => failedStartsOf rest

end VisualStudio

/-! ## Arithmetic of the 64-bit layout -/

theorem or_shiftLeft_eq_add (a b k : Nat) (h : a < 2 ^ k) :
    a ||| (b <<< k) = a + b * 2 ^ k := by
  rw [Nat.shiftLeft_eq, Nat.or_comm, Nat.mul_comm, ← Nat.mul_add_lt_is_or h]
  omega

theorem and_0xFF (x : Nat) : x &&& 0xFF = x % 256 := by
  have h := Nat.and_pow_two_sub_one_eq_mod x 8
  norm_num at h
  exact h

theorem and_0xFFFFFF (x : Nat) : x &&& 0xFFFFFF = x % 2 ^ 24 := by
  have h := Nat.and_pow_two_sub_one_eq_mod x 24
  norm_num at h
  simpa using h

theorem toUInt32_lt (i : Int) : toUInt32 i < 2 ^ 32 := by
  unfold toUInt32
  omega

theorem toSInt32_toUInt32 (i : Int) (hlo : -(2 ^ 31) ≤ i) (hhi : i < 2 ^ 31) :
    toSInt32 (toUInt32 i) = i := by
  unfold toSInt32 toUInt32
  split <;> omega

theorem toSInt32_mod (n : Nat) : toSInt32 (n % 2 ^ 32) = toSInt32 n := by
  unfold toSInt32
  rw [Nat.mod_mod]

theorem xcode_encode_eq_add (m : Xcode.MidiMessage) (hs : m.status_ < 256)
    (h0 : m.data_0 < 256) :
    m.Encode64Bit =
      toUInt32 m.endpoint_ + m.status_ * 2 ^ 32 + m.data_0 * 2 ^ 40 + m.data_1 * 2 ^ 48 := by
  have he := toUInt32_lt m.endpoint_
  unfold Xcode.MidiMessage.Encode64Bit
  simp only []
  rw [or_shiftLeft_eq_add _ _ 32 he, or_shiftLeft_eq_add _ _ 40 (by omega),
    or_shiftLeft_eq_add _ _ 48 (by omega)]

theorem win_encode_eq_add (m : VisualStudio.MidiMessage) (he : m.endpoint_ < 2 ^ 32)
    (hs : m.status_ < 256) (h0 : m.data1_ < 256) :
    m.Encode64Bit =
      m.endpoint_ + m.status_ * 2 ^ 32 + m.data1_ * 2 ^ 40 + m.data2_ * 2 ^ 48 := by
  unfold VisualStudio.MidiMessage.Encode64Bit
  simp only []
  rw [or_shiftLeft_eq_add _ _ 32 he, or_shiftLeft_eq_add _ _ 40 (by omega),
    or_shiftLeft_eq_add _ _ 48 (by omega)]

/-- The fields of a Core MIDI message built by the constructor and two `SetData` calls. -/
theorem xcode_setData_fields (e : Int) (s d1 d2 : Nat) :
    ((Xcode.MidiMessage.new e s).SetData 0 d1).SetData 1 d2 =
      { endpoint_ := e, status_ := s, data_0 := d1, data_1 := d2 } := by
  simp [Xcode.MidiMessage.new, Xcode.MidiMessage.SetData]

/-- C1 (encode/decode round trip, both backends).  Core MIDI backend: for a
message with endpoint `e` (any integer, in particular a negative `SInt32`),
status `s` and data bytes `d1`, `d2`, the word `w = Encode64Bit` has low 32 bits
`e mod 2^32`, bytes `s`, `d1`, `d2` at bits 32, 40, 48 and nothing from bit 56
on; the three bytes `SendMessage` transmits are `s, d1, d2`, and the
`MIDIUniqueID` it looks up is `e` again when `e` is a signed 32-bit value.
WinMM backend: for a message with endpoint `ew` built from the raw dword `r`,
the same layout holds for the fields `r & 0xFF`, `(r >> 8) & 0xFF`,
`(r >> 16) & 0xFF`, the packet `SendMessage` extracts is `r & 0xFFFFFF`, the
raw dword `s | d1 << 8 | d2 << 16` gives the fields `s`, `d1`, `d2`, and a
message with the fields `ew`, `s`, `d1`, `d2` decodes to them. -/
theorem encode_decode_round_trip (e : Int) (ew s d1 d2 r : Nat)
    (hew : ew < 2 ^ 32) (hs : s < 256) (hd1 : d1 < 256) (hd2 : d2 < 256) :
    (let w := (((Xcode.MidiMessage.new e s).SetData 0 d1).SetData 1 d2).Encode64Bit
     w % 2 ^ 32 = toUInt32 e ∧ (0 ≤ e → e < 2 ^ 32 → ((w % 2 ^ 32 : Nat) : Int) = e) ∧
      (w >>> 32) &&& 0xFF = s ∧ (w >>> 40) &&& 0xFF = d1 ∧ (w >>> 48) &&& 0xFF = d2 ∧
      w >>> 56 = 0 ∧ w < 2 ^ 64 ∧ Xcode.packetBytes w = [s, d1, d2] ∧
      (-(2 ^ 31) ≤ e → e < 2 ^ 31 → toSInt32 w = e)) ∧
    (let m := VisualStudio.MidiMessage.new ew r
     let w := m.Encode64Bit
     m.status_ = r &&& 0xFF ∧ m.data1_ = (r >>> 8) &&& 0xFF ∧ m.data2_ = (r >>> 16) &&& 0xFF ∧
      w % 2 ^ 32 = ew ∧ (w >>> 32) &&& 0xFF = m.status_ ∧ (w >>> 40) &&& 0xFF = m.data1_ ∧
      (w >>> 48) &&& 0xFF = m.data2_ ∧ w >>> 56 = 0 ∧ w < 2 ^ 64 ∧
      VisualStudio.sendPacket w = r &&& 0xFFFFFF ∧
      VisualStudio.DeviceIDToOutputHandle (w % 2 ^ 32) = ew) ∧
    VisualStudio.MidiMessage.new ew (s ||| (d1 <<< 8) ||| (d2 <<< 16)) =
      { endpoint_ := ew, status_ := s, data1_ := d1, data2_ := d2 } ∧
    (let w := VisualStudio.MidiMessage.Encode64Bit
        { endpoint_ := ew, status_ := s, data1_ := d1, data2_ := d2 }
     w % 2 ^ 32 = ew ∧ (w >>> 32) &&& 0xFF = s ∧ (w >>> 40) &&& 0xFF = d1 ∧
      (w >>> 48) &&& 0xFF = d2 ∧ w >>> 56 = 0 ∧
      VisualStudio.sendPacket w = s ||| (d1 <<< 8) ||| (d2 <<< 16)) := by
  refine ⟨?_, ?_, ?_, ?_⟩
  · have hw := xcode_encode_eq_add
      { endpoint_ := e, status_ := s, data_0 := d1, data_1 := d2 } hs hd1
    have he := toUInt32_lt e
    simp only [xcode_setData_fields, and_0xFF, Nat.shiftRight_eq_div_pow, Xcode.packetBytes]
    simp only [] at hw
    rw [hw]
    have hmod : (toUInt32 e + s * 2 ^ 32 + d1 * 2 ^ 40 + d2 * 2 ^ 48) % 2 ^ 32 = toUInt32 e := by
      omega
    refine ⟨hmod, ?_, by omega, by omega, by omega, by omega, by omega, ?_, ?_⟩
    · intro h0 h1
      rw [hmod]
      unfold toUInt32
      omega
    · have a1 : (toUInt32 e + s * 2 ^ 32 + d1 * 2 ^ 40 + d2 * 2 ^ 48) / 2 ^ 32 % 256 = s := by
        omega
      have a2 : (toUInt32 e + s * 2 ^ 32 + d1 * 2 ^ 40 + d2 * 2 ^ 48) / 2 ^ 40 % 256 = d1 := by
        omega
      have a3 : (toUInt32 e + s * 2 ^ 32 + d1 * 2 ^ 40 + d2 * 2 ^ 48) / 2 ^ 48 % 256 = d2 := by
        omega
      rw [a1, a2, a3]
    · intro hlo hhi
      rw [← toSInt32_mod, hmod]
      exact toSInt32_toUInt32 e hlo hhi
  · have hm : VisualStudio.MidiMessage.new ew r =
        { endpoint_ := ew, status_ := r % 256, data1_ := r / 2 ^ 8 % 256,
          data2_ := r / 2 ^ 16 % 256 } := by
      simp only [VisualStudio.MidiMessage.new, Nat.shiftRight_eq_div_pow]
    have hw := win_encode_eq_add
      { endpoint_ := ew, status_ := r % 256, data1_ := r / 2 ^ 8 % 256,
        data2_ := r / 2 ^ 16 % 256 } hew (Nat.mod_lt _ (by norm_num)) (Nat.mod_lt _ (by norm_num))
    simp only [] at hw
    simp only [hm]
    rw [hw]
    simp only [and_0xFF, and_0xFFFFFF, VisualStudio.sendPacket,
      VisualStudio.DeviceIDToOutputHandle, Nat.shiftRight_eq_div_pow, Nat.reducePow]
    clear hm hw
    have hr : r % 16777216 = r % 256 + r / 256 % 256 * 256 + r / 65536 % 256 * 65536 := by omega
    rw [hr]
    have ha : r % 256 < 256 := Nat.mod_lt _ (by norm_num)
    have hb : r / 256 % 256 < 256 := Nat.mod_lt _ (by norm_num)
    have hc : r / 65536 % 256 < 256 := Nat.mod_lt _ (by norm_num)
    generalize r % 256 = a at ha ⊢
    generalize r / 256 % 256 = b at hb ⊢
    generalize r / 65536 % 256 = c at hc ⊢
    clear hr
    refine ⟨trivial, trivial, trivial, ?_, ?_, ?_, ?_, ?_, ?_, ?_, ?_⟩
    all_goals first
      | omega
      | (show @Eq Nat _ _; omega)
  · have h1 := or_shiftLeft_eq_add s d1 8 (by omega)
    have h2 := or_shiftLeft_eq_add (s + d1 * 2 ^ 8) d2 16 (by omega)
    rw [h1, h2]
    simp only [VisualStudio.MidiMessage.new, Nat.shiftRight_eq_div_pow]
    congr 1 <;> omega
  · have hw := win_encode_eq_add
      { endpoint_ := ew, status_ := s, data1_ := d1, data2_ := d2 } hew hs hd1
    simp only [] at hw
    have h1 := or_shiftLeft_eq_add s d1 8 (by omega)
    have h2 := or_shiftLeft_eq_add (s + d1 * 2 ^ 8) d2 16 (by omega)
    simp only [hw, and_0xFF, VisualStudio.sendPacket, Nat.shiftRight_eq_div_pow]
    rw [h1, h2]
    clear hw h1 h2
    simp only [Nat.reducePow]
    refine ⟨?_, ?_, ?_, ?_, ?_, ?_⟩ <;> omega

/-- The round trip at a negative Core MIDI identifier and a note-on message. -/
theorem encode_decode_round_trip_witness :
    (((Xcode.MidiMessage.new (-5) 0x90).SetData 0 0x40).SetData 1 0x7F).Encode64Bit % 2 ^ 32
        = toUInt32 (-5) ∧
      toSInt32 (((Xcode.MidiMessage.new (-5) 0x90).SetData 0 0x40).SetData 1 0x7F).Encode64Bit
        = -5 ∧
      VisualStudio.sendPacket (VisualStudio.MidiMessage.new 7 0x127F4090).Encode64Bit
        = 0x127F4090 &&& 0xFFFFFF :=
  have h := encode_decode_round_trip (-5) 7 0x90 0x40 0x7F 0x127F4090
    (by norm_num) (by norm_num) (by norm_num) (by norm_num)
  ⟨h.1.1, h.1.2.2.2.2.2.2.2.2 (by norm_num) (by norm_num), h.2.1.2.2.2.2.2.2.2.2.2.1⟩

/-! ## The packet parser -/

namespace Xcode

theorem read_of_drop {p : MIDIPacket} {offs b : Nat} {rest : List Nat}
    (h : p.data.drop offs = b :: rest) :
    offs < p.length ∧ p.read offs = .ok b ∧ p.data.drop (offs + 1) = rest := by
  have hlt : offs < p.data.length := by
    by_contra hh
    rw [List.drop_eq_nil_of_le (by omega)] at h
    cases h
  rw [List.drop_eq_getElem_cons hlt] at h
  injection h with h1 h2
  refine ⟨hlt, ?_, h2⟩
  unfold MIDIPacket.read
  rw [List.getElem?_eq_getElem hlt, h1]

theorem not_lt_of_drop_nil {p : MIDIPacket} {offs : Nat} (h : p.data.drop offs = []) :
    ¬ offs < p.length := by
  have := List.drop_eq_nil_iff.mp h
  unfold MIDIPacket.length
  omega

theorem dataLoop_spec (p : MIDIPacket) :
    ∀ (suffix : List Nat) (fuel dc offs : Nat) (m : MidiMessage),
      p.data.drop offs = suffix → suffix.length < fuel →
      dataLoop p fuel dc offs m =
        .ok (offs + (suffix.takeWhile (fun b => decide (b < 0x80))).length,
          absorb dc m (suffix.takeWhile (fun b => decide (b < 0x80)))) := by
  intro suffix
  induction suffix with
  | nil =>
    intro fuel dc offs m hd hf
    obtain ⟨f, rfl⟩ : ∃ f, fuel = f + 1 := ⟨fuel - 1, by simp at hf; omega⟩
    simp [dataLoop, not_lt_of_drop_nil hd, absorb]
  | cons b rest ih =>
    intro fuel dc offs m hd hf
    obtain ⟨f, rfl⟩ : ∃ f, fuel = f + 1 := ⟨fuel - 1, by simp at hf; omega⟩
    obtain ⟨hlt, hread, hrest⟩ := read_of_drop hd
    by_cases hb : b < 0x80
    · have hf2 : rest.length < f := by simp at hf; omega
      simp only [dataLoop, hlt, hread, hb, if_true]
      rw [ih f (dc + 1) (offs + 1) (m.SetData dc b) hrest hf2]
      simp [hb, absorb]
      omega
    · simp [dataLoop, hlt, hread, hb, absorb]

theorem absorb_of_two_le : ∀ (bs : List Nat) (dc : Nat) (m : MidiMessage),
    2 ≤ dc → absorb dc m bs = m := by
  intro bs
  induction bs with
  | nil => intro dc m _; rfl
  | cons b bs ih =>
    intro dc m h
    have hset : m.SetData dc b = m := by
      unfold MidiMessage.SetData
      rw [if_neg (by omega)]
    simp only [absorb, hset]
    exact ih (dc + 1) m (by omega)

theorem absorb_new (e : MIDIUniqueID) (s : Nat) (rest : List Nat) :
    absorb 0 (MidiMessage.new e s) (rest.takeWhile (fun b => decide (b < 0x80))) =
      { endpoint_ := e, status_ := s, data_0 := specData1 rest, data_1 := specData2 rest } := by
  cases rest with
  | nil => rfl
  | cons b rest1 =>
    by_cases hb : b < 0x80
    · cases rest1 with
      | nil => simp [hb, absorb, specData1, specData2, MidiMessage.new, MidiMessage.SetData]
      | cons c rest2 =>
        by_cases hc : c < 0x80
        · simp [hb, hc, absorb, specData1, specData2, MidiMessage.new, MidiMessage.SetData,
            absorb_of_two_le]
        · simp [hb, hc, absorb, specData1, specData2, MidiMessage.new, MidiMessage.SetData]
    · cases rest1 with
      | nil => simp [hb, absorb, specData1, specData2, MidiMessage.new]
      | cons c rest2 => simp [hb, absorb, specData1, specData2, MidiMessage.new]

theorem specChannelMessages_dropWhile (e : MIDIUniqueID) (rest : List Nat) :
    specChannelMessages e (rest.dropWhile (fun b => decide (b < 0x80))) =
      specChannelMessages e rest := by
  induction rest with
  | nil => rfl
  | cons b rest ih =>
    by_cases hb : b < 0x80
    · have hnb : ¬ b ≥ 0x80 := by omega
      simp only [List.dropWhile_cons, hb, decide_True, if_true, specChannelMessages, hnb,
        if_false, ih]
    · simp [hb]

theorem drop_length_takeWhile (q : Nat → Bool) (l : List Nat) :
    l.drop (l.takeWhile q).length = l.dropWhile q := by
  induction l with
  | nil => rfl
  | cons b l ih =>
    by_cases hb : q b
    · simp [hb, ih]
    · simp [hb]

theorem head_dropWhile_ge (rest : List Nat) (b : Nat)
    (h : (rest.dropWhile (fun b => decide (b < 0x80))).head? = some b) : b ≥ 0x80 := by
  induction rest with
  | nil => simp at h
  | cons c rest ih =>
    by_cases hc : c < 0x80
    · simp only [List.dropWhile_cons, hc, decide_True, if_true] at h
      exact ih h
    · simp [hc] at h
      omega

theorem messageLoop_spec (e : MIDIUniqueID) (p : MIDIPacket) :
    ∀ (n : Nat) (suffix : List Nat), suffix.length ≤ n →
      ∀ (fuel offs : Nat) (q : List MidiMessage),
        p.data.drop offs = suffix → suffix.length < fuel →
        (∀ b, suffix.head? = some b → b ≥ 0x80) →
        messageLoop e p fuel offs q = .ok (q ++ specChannelMessages e suffix) := by
  intro n
  induction n with
  | zero =>
    intro suffix hn fuel offs q hd hf _
    have hs : suffix = [] := List.length_eq_zero.mp (by omega)
    subst hs
    obtain ⟨f, rfl⟩ : ∃ f, fuel = f + 1 := ⟨fuel - 1, by simp at hf; omega⟩
    simp [messageLoop, not_lt_of_drop_nil hd, specChannelMessages]
  | succ n ih =>
    intro suffix hn fuel offs q hd hf hhead
    obtain ⟨f, rfl⟩ : ∃ f, fuel = f + 1 := ⟨fuel - 1, by omega⟩
    cases suffix with
    | nil => simp [messageLoop, not_lt_of_drop_nil hd, specChannelMessages]
    | cons s rest =>
      obtain ⟨hlt, hread, hrest⟩ := read_of_drop hd
      have hs : s ≥ 0x80 := hhead s rfl
      have hlen : rest.length < p.length + 1 := by
        have h1 : (p.data.drop (offs + 1)).length = rest.length := by rw [hrest]
        rw [List.length_drop] at h1
        unfold MIDIPacket.length
        omega
      have hdl := dataLoop_spec p rest (p.length + 1) 0 (offs + 1) (MidiMessage.new e s)
        hrest hlen
      simp only [messageLoop, hlt, hread, hdl, if_true, absorb_new]
      have hdrop : p.data.drop (offs + 1 + (rest.takeWhile (fun b => decide (b < 0x80))).length)
          = rest.dropWhile (fun b => decide (b < 0x80)) := by
        rw [← List.drop_drop, hrest, drop_length_takeWhile]
      have hle : (rest.dropWhile (fun b => decide (b < 0x80))).length ≤ rest.length := by
        rw [← drop_length_takeWhile, List.length_drop]
        omega
      simp only [List.length_cons] at hn hf
      rw [ih _ (by omega) f _ _ hdrop (by omega) (head_dropWhile_ge rest)]
      simp [specChannelMessages, hs, specChannelMessages_dropWhile]

theorem read_last (p : MIDIPacket) (x : Nat) (h : p.data.getLast? = some x) :
    p.read (p.length - 1) = .ok x := by
  unfold MIDIPacket.read MIDIPacket.length
  rw [← List.getLast?_eq_getElem?, h]

theorem isSysexFrame_eq (p : MIDIPacket) (b0 x : Nat) (hfirst : p.data.head? = some b0)
    (hlast : p.data.getLast? = some x) :
    isSysexFrame p = .ok (decide (b0 = 0xf0 ∧ x = 0xf7)) := by
  have h0 : p.read 0 = .ok b0 := by
    unfold MIDIPacket.read
    rw [← List.head?_eq_getElem?, hfirst]
  unfold isSysexFrame MIDIPacket.byteIs
  rw [h0, read_last p x hlast]
  by_cases hb : b0 = 0xf0
  · subst hb
    by_cases hx : x = 0xf7
    · subst hx
      rfl
    · have hxf : (x == 0xf7) = false := by simpa using hx
      simp [cAnd, hx, hxf]
  · have hbf : (b0 == 0xf0) = false := by simpa using hb
    simp [cAnd, hb, hbf]

theorem getLast?_of_head? {l : List Nat} {b0 : Nat} (h : l.head? = some b0) :
    ∃ x, l.getLast? = some x := by
  cases l with
  | nil => simp at h
  | cons a l => exact ⟨_, List.getLast?_eq_getLast _ (by simp)⟩

theorem processPacket_channel (e : MIDIUniqueID) (p : MIDIPacket) (q : List MidiMessage)
    (b0 : Nat) (hfirst : p.data.head? = some b0) (hstatus : b0 ≥ 0x80)
    (hframe : ¬ (b0 = 0xf0 ∧ p.data.getLast? = some 0xf7)) :
    processPacket e p q = .ok (q ++ specChannelMessages e p.data) := by
  obtain ⟨x, hx⟩ := getLast?_of_head? hfirst
  have hfr : isSysexFrame p = .ok false := by
    rw [isSysexFrame_eq p b0 x hfirst hx]
    have : ¬ (b0 = 0xf0 ∧ x = 0xf7) := by
      intro h
      exact hframe ⟨h.1, by rw [hx, h.2]⟩
    simp [this]
  have h0 : p.read 0 = .ok b0 := by
    unfold MIDIPacket.read
    rw [← List.head?_eq_getElem?, hfirst]
  have hloop := messageLoop_spec e p p.data.length p.data (Nat.le_refl _) (p.length + 1) 0 q
    (by simp) (by unfold MIDIPacket.length; omega)
    (by intro b hb; rw [hfirst] at hb; cases hb; exact hstatus)
  simp only [processPacket, hfr, h0, hstatus, if_true, hloop]

theorem processPacket_low (e : MIDIUniqueID) (p : MIDIPacket) (q : List MidiMessage)
    (b0 : Nat) (hfirst : p.data.head? = some b0) (hlow : b0 < 0x80) :
    processPacket e p q = .ok q := by
  obtain ⟨x, hx⟩ := getLast?_of_head? hfirst
  have hfr : isSysexFrame p = .ok false := by
    rw [isSysexFrame_eq p b0 x hfirst hx]
    have : ¬ (b0 = 0xf0 ∧ x = 0xf7) := by omega
    simp [this]
  have h0 : p.read 0 = .ok b0 := by
    unfold MIDIPacket.read
    rw [← List.head?_eq_getElem?, hfirst]
  have hn : ¬ b0 ≥ 0x80 := by omega
  simp only [processPacket, hfr, h0, hn, if_false]

theorem specChannelMessages_status (e : MIDIUniqueID) (l : List Nat) :
    (specChannelMessages e l).map (fun m => m.status_) = l.filter (fun b => decide (b ≥ 0x80)) := by
  induction l with
  | nil => rfl
  | cons b l ih =>
    by_cases hb : b ≥ 0x80
    · simp [specChannelMessages, hb, ih]
    · simp [specChannelMessages, hb, ih]

theorem specChannelMessages_endpoint (e : MIDIUniqueID) (l : List Nat) :
    ∀ m ∈ specChannelMessages e l, m.endpoint_ = e := by
  induction l with
  | nil => intro m hm; simp [specChannelMessages] at hm
  | cons b l ih =>
    intro m hm
    by_cases hb : b ≥ 0x80
    · simp only [specChannelMessages, hb, if_true, List.mem_cons] at hm
      rcases hm with rfl | hm
      · rfl
      · exact ih m hm
    · simp only [specChannelMessages, hb, if_false] at hm
      exact ih m hm

theorem ResetIfRequired_queue (os : OS) (s : State) :
    (ResetIfRequired os s).state.message_queue = s.message_queue := by
  unfold ResetIfRequired
  cases hr : s.reset_required
  · rfl
  · cases h1 : os.clientCreate with
    | none => rfl
    | some client =>
      cases h2 : os.inputPortCreate with
      | none => rfl
      | some portIn =>
        simp only [Bool.not_true, Bool.false_eq_true, if_false]
        split
        · rfl
        · cases h4 : os.outputPortCreate with
          | none => rfl
          | some portOut =>
            simp only []
            split <;> rfl

theorem MIDIReadProc_single (s : State) (e : MIDIUniqueID) (p : MIDIPacket)
    (q : List MidiMessage) (h : processPacket e p s.message_queue = .ok q) :
    MIDIReadProc s [p] e = .ok { s with message_queue := q } := by
  simp only [MIDIReadProc, processPackets, h]

theorem MIDIReadProc_single_error (s : State) (e : MIDIUniqueID) (p : MIDIPacket)
    (err : ReadError) (h : processPacket e p s.message_queue = .error err) :
    MIDIReadProc s [p] e = .error err := by
  simp only [MIDIReadProc, processPackets, h]

theorem dequeue_of_reset_ok (os : OS) (s : State) (m : MidiMessage) (rest : List MidiMessage)
    (hq : s.message_queue = m :: rest) (hr : (ResetIfRequired os s).ret = true) :
    (MidiJackDequeueIncomingData os s).ret = m.Encode64Bit ∧
      (MidiJackDequeueIncomingData os s).state.message_queue = rest := by
  have hqueue := ResetIfRequired_queue os s
  rw [hq] at hqueue
  unfold MidiJackDequeueIncomingData
  simp only [hr, Bool.not_true, Bool.false_eq_true, if_false]
  split
  · rename_i h
    rw [h] at hqueue
    cases hqueue
  · rename_i m1 rest1 h
    rw [h] at hqueue
    injection hqueue with h1 h2
    subst h1 h2
    exact ⟨rfl, rfl⟩

theorem dequeue_of_reset_failed (os : OS) (s : State)
    (hr : (ResetIfRequired os s).ret = false) :
    (MidiJackDequeueIncomingData os s).ret = 0 ∧
      (MidiJackDequeueIncomingData os s).state.message_queue = s.message_queue := by
  unfold MidiJackDequeueIncomingData
  simp only [hr, Bool.not_false, if_true]
  exact ⟨trivial, ResetIfRequired_queue os s⟩

theorem dequeue_of_empty (os : OS) (s : State) (hq : s.message_queue = []) :
    (MidiJackDequeueIncomingData os s).ret = 0 ∧
      (MidiJackDequeueIncomingData os s).state.message_queue = [] := by
  have hqueue := ResetIfRequired_queue os s
  rw [hq] at hqueue
  unfold MidiJackDequeueIncomingData
  simp only []
  split
  · exact ⟨rfl, hqueue⟩
  · split
    · exact ⟨rfl, hqueue⟩
    · rename_i m rest h
      rw [h] at hqueue
      cases hqueue

/-- C2, as amended (channel-message parsing of `MIDIReadProc`).  For a packet
whose first byte `b0` is `>= 0x80` and that is not an F0...F7 frame, the parser
appends to the queue exactly the messages the specification lists: one per
byte `>= 0x80`, in packet order, with endpoint `e`, that byte as status and
the first two directly following bytes below `0x80` as data (0 when absent).
For the packet `90 40 7F` on an empty queue the next
`MidiJackDequeueIncomingData` returns `e | 0x90<<32 | 0x40<<40 | 0x7F<<48` when
its `ResetIfRequired` does not fail; when it fails the call returns 0 and the
message stays in the queue. -/
theorem channel_message_parsing (s : State) (e : MIDIUniqueID) (p : MIDIPacket) (b0 : Nat)
    (os : OS) (hfirst : p.data.head? = some b0) (hstatus : b0 ≥ 0x80)
    (hframe : ¬ (b0 = 0xf0 ∧ p.data.getLast? = some 0xf7)) :
    MIDIReadProc s [p] e =
        .ok { s with message_queue := s.message_queue ++ specChannelMessages e p.data } ∧
      (specChannelMessages e p.data).map (fun m => m.status_) =
        p.data.filter (fun b => decide (b ≥ 0x80)) ∧
      (∀ m ∈ specChannelMessages e p.data, m.endpoint_ = e) ∧
      (s.message_queue = [] →
        MIDIReadProc s [noteOnPacket] e =
            .ok { s with message_queue :=
              [{ endpoint_ := e, status_ := 0x90, data_0 := 0x40, data_1 := 0x7F }] } ∧
          ((ResetIfRequired os { s with message_queue :=
              [{ endpoint_ := e, status_ := 0x90, data_0 := 0x40, data_1 := 0x7F }] }).ret = true →
            (MidiJackDequeueIncomingData os { s with message_queue :=
              [{ endpoint_ := e, status_ := 0x90, data_0 := 0x40, data_1 := 0x7F }] }).ret =
              toUInt32 e ||| (0x90 <<< 32) ||| (0x40 <<< 40) ||| (0x7F <<< 48)) ∧
          ((ResetIfRequired os { s with message_queue :=
              [{ endpoint_ := e, status_ := 0x90, data_0 := 0x40, data_1 := 0x7F }] }).ret = false →
            (MidiJackDequeueIncomingData os { s with message_queue :=
              [{ endpoint_ := e, status_ := 0x90, data_0 := 0x40, data_1 := 0x7F }] }).ret = 0 ∧
            (MidiJackDequeueIncomingData os { s with message_queue :=
              [{ endpoint_ := e, status_ := 0x90, data_0 := 0x40, data_1 := 0x7F }]
                }).state.message_queue =
              [{ endpoint_ := e, status_ := 0x90, data_0 := 0x40, data_1 := 0x7F }])) := by
  refine ⟨?_, specChannelMessages_status e p.data, specChannelMessages_endpoint e p.data, ?_⟩
  · exact MIDIReadProc_single s e p _
      (processPacket_channel e p s.message_queue b0 hfirst hstatus hframe)
  · intro hq
    refine ⟨?_, ?_, ?_⟩
    · have h := processPacket_channel e noteOnPacket s.message_queue 0x90 rfl (by decide)
        (by decide)
      rw [MIDIReadProc_single s e noteOnPacket _ h, hq]
      rfl
    · intro hr
      exact (dequeue_of_reset_ok os _ _ [] rfl hr).1
    · intro hr
      exact dequeue_of_reset_failed os _ hr

/-- The parser on the packet `90 40 91 10 20 30 F8` of endpoint `-3`, queue
empty: three messages, the third data byte after `0x91` dropped. -/
theorem channel_message_parsing_witness :
    MIDIReadProc State.initial [{ data := [0x90, 0x40, 0x91, 0x10, 0x20, 0x30, 0xF8] }] (-3) =
      .ok { State.initial with message_queue :=
        [{ endpoint_ := -3, status_ := 0x90, data_0 := 0x40, data_1 := 0 },
         { endpoint_ := -3, status_ := 0x91, data_0 := 0x10, data_1 := 0x20 },
         { endpoint_ := -3, status_ := 0xF8, data_0 := 0, data_1 := 0 }] } :=
  (channel_message_parsing State.initial (-3)
    { data := [0x90, 0x40, 0x91, 0x10, 0x20, 0x30, 0xF8] } 0x90 OS.down rfl (by decide)
    (by decide)).1

/-- C2, the claim as stated fails: after a first reset that succeeds, a
setup-changed notification sets `reset_required`; the packet `90 40 7F` of
endpoint 11 then arrives on the empty queue; a `MidiJackDequeueIncomingData`
during which `MIDIClientCreate` fails returns 0, not the encoded message, and
leaves the message queued. -/
theorem dequeue_after_packet_counterexample :
    (MIDIStateChangedHander (ResetIfRequired OS.up State.initial).state true).message_queue = [] ∧
      MIDIReadProc (MIDIStateChangedHander (ResetIfRequired OS.up State.initial).state true)
          [noteOnPacket] 11 =
        .ok { MIDIStateChangedHander (ResetIfRequired OS.up State.initial).state true with
          message_queue := [{ endpoint_ := 11, status_ := 0x90, data_0 := 0x40, data_1 := 0x7F }] } ∧
      (MidiJackDequeueIncomingData OS.down
          { MIDIStateChangedHander (ResetIfRequired OS.up State.initial).state true with
            message_queue :=
              [{ endpoint_ := 11, status_ := 0x90, data_0 := 0x40, data_1 := 0x7F }] }).ret = 0 ∧
      (MidiJackDequeueIncomingData OS.down
          { MIDIStateChangedHander (ResetIfRequired OS.up State.initial).state true with
            message_queue :=
              [{ endpoint_ := 11, status_ := 0x90, data_0 := 0x40, data_1 := 0x7F }] }).ret ≠
        toUInt32 11 ||| (0x90 <<< 32) ||| (0x40 <<< 40) ||| (0x7F <<< 48) := by
  refine ⟨by decide, by rfl, by decide, by decide⟩

theorem read_of_lt (p : MIDIPacket) (i : Nat) (h : i < p.length) :
    p.read i = .ok (p.data.getD i 0) := by
  unfold MIDIPacket.length at h
  unfold MIDIPacket.read
  rw [List.getD_eq_getElem?_getD, List.getElem?_eq_getElem h]
  rfl

theorem read_of_le (p : MIDIPacket) (i : Nat) (h : p.length ≤ i) :
    p.read i = .error (.outOfRange i) := by
  unfold MIDIPacket.length at h
  unfold MIDIPacket.read
  rw [List.getElem?_eq_none_iff.mpr h]

theorem byteIs_of_lt (p : MIDIPacket) (i v : Nat) (h : i < p.length) :
    p.byteIs i v = .ok (p.data.getD i 0 == v) := by
  unfold MIDIPacket.byteIs
  rw [read_of_lt p i h]

theorem cAnd_ok (a b : Bool) : cAnd (.ok a) (.ok b) = .ok (a && b) := by
  cases a <;> rfl

theorem hasSignature_of_le (p : MIDIPacket) (h : 5 ≤ p.length) :
    hasSignature p =
      .ok (decide (p.data.getD 1 0 = 0x00 ∧ p.data.getD 2 0 = 0x20 ∧ p.data.getD 3 0 = 0x76 ∧
        p.data.getD 4 0 = 0x03)) := by
  unfold hasSignature
  rw [byteIs_of_lt p 1 0x00 (by omega), byteIs_of_lt p 2 0x20 (by omega),
    byteIs_of_lt p 3 0x76 (by omega), byteIs_of_lt p 4 0x3 (by omega), cAnd_ok, cAnd_ok, cAnd_ok]
  congr 1
  rw [Bool.eq_iff_iff]
  simp [and_assoc]

theorem isSysexFrame_true (p : MIDIPacket) (hfirst : p.data.head? = some 0xf0)
    (hlast : p.data.getLast? = some 0xf7) : isSysexFrame p = .ok true := by
  rw [isSysexFrame_eq p 0xf0 0xf7 hfirst hlast]
  rfl

/-- C3 (vendor sysex decoding of `MIDIReadProc`).  For a packet of length at
least 7 that starts with `0xF0` and ends with `0xF7`: when bytes 1..4 are
`00 20 76 03` exactly one message is pushed, with endpoint `e`, status `0xF0`,
`data1` = byte 5 and `data2` = byte 6; when bytes 1..4 differ from that
signature the queue (and every other global) is left as it was. -/
theorem vendor_sysex_decoding (s : State) (e : MIDIUniqueID) (p : MIDIPacket)
    (hlen : 7 ≤ p.length) (hfirst : p.data.head? = some 0xf0)
    (hlast : p.data.getLast? = some 0xf7) :
    ((p.data.getD 1 0 = 0x00 ∧ p.data.getD 2 0 = 0x20 ∧ p.data.getD 3 0 = 0x76 ∧
        p.data.getD 4 0 = 0x03) →
      MIDIReadProc s [p] e =
        .ok { s with message_queue := s.message_queue ++
          [{ endpoint_ := e, status_ := 0xf0, data_0 := p.data.getD 5 0,
             data_1 := p.data.getD 6 0 }] }) ∧
    (¬ (p.data.getD 1 0 = 0x00 ∧ p.data.getD 2 0 = 0x20 ∧ p.data.getD 3 0 = 0x76 ∧
        p.data.getD 4 0 = 0x03) →
      MIDIReadProc s [p] e = .ok s) := by
  have hfr := isSysexFrame_true p hfirst hlast
  have hsig := hasSignature_of_le p (by omega)
  have h5 := read_of_lt p 5 (by omega)
  have h6 := read_of_lt p 6 (by omega)
  constructor
  · intro h
    apply MIDIReadProc_single
    simp only [processPacket, hfr, hsig, h, decide_True, and_self, h5, h6, xcode_setData_fields]
  · intro h
    have hq : processPacket e p s.message_queue = .ok s.message_queue := by
      simp only [processPacket, hfr, hsig, h, decide_False]
    exact MIDIReadProc_single s e p _ hq

/-- The scenario of C3: `F0 00 20 76 03 11 22 F7` on endpoint 7 yields the
single message `(7, 0xF0, 0x11, 0x22)`. -/
theorem vendor_sysex_decoding_witness :
    MIDIReadProc State.initial [vendorPacket] 7 =
      .ok { State.initial with message_queue :=
        [{ endpoint_ := 7, status_ := 0xf0, data_0 := 0x11, data_1 := 0x22 }] } :=
  (vendor_sysex_decoding State.initial 7 vendorPacket (by decide) rfl rfl).1
    ⟨rfl, rfl, rfl, rfl⟩

/-- C10, the failing input: on the six-byte frame `F0 00 20 76 03 F7` the
parser passes both tests and then reads `packet->data[6]`, one past the last
valid index 5 (length 6); the run has no defined result. -/
theorem parser_reads_past_length (s : State) (e : MIDIUniqueID) :
    shortVendorPacket.length = 6 ∧
      MIDIReadProc s [shortVendorPacket] e = .error (.outOfRange 6) := by
  refine ⟨rfl, ?_⟩
  apply MIDIReadProc_single_error
  rfl

theorem hasSignature_frame (p : MIDIPacket) (hfirst : p.data.head? = some 0xf0)
    (hlast : p.data.getLast? = some 0xf7) :
    hasSignature p =
      .ok (decide (p.data.getD 1 0 = 0x00 ∧ p.data.getD 2 0 = 0x20 ∧ p.data.getD 3 0 = 0x76 ∧
        p.data.getD 4 0 = 0x03)) := by
  by_cases h5 : 5 ≤ p.length
  · exact hasSignature_of_le p h5
  · obtain ⟨data⟩ := p
    simp only [MIDIPacket.length] at h5
    rcases data with _ | ⟨a, _ | ⟨b, _ | ⟨c, _ | ⟨d, _ | ⟨e, rest⟩⟩⟩⟩⟩
    · simp at hfirst
    · simp at hfirst hlast
      omega
    · simp only [List.getLast?_cons_cons, List.getLast?_singleton, Option.some.injEq] at hlast
      subst hlast
      simp [hasSignature, MIDIPacket.byteIs, MIDIPacket.read, cAnd]
    · simp only [List.getLast?_cons_cons, List.getLast?_singleton, Option.some.injEq] at hlast
      subst hlast
      by_cases hb : b = 0
      · simp [hasSignature, MIDIPacket.byteIs, MIDIPacket.read, cAnd, hb]
      · have hbf : (b == 0) = false := by simpa using hb
        simp [hasSignature, MIDIPacket.byteIs, MIDIPacket.read, cAnd, hb, hbf]
    · simp only [List.getLast?_cons_cons, List.getLast?_singleton, Option.some.injEq] at hlast
      subst hlast
      by_cases hb : b = 0
      · by_cases hc : c = 0x20
        · simp [hasSignature, MIDIPacket.byteIs, MIDIPacket.read, cAnd, hb, hc]
        · have hcf : (c == 0x20) = false := by simpa using hc
          simp [hasSignature, MIDIPacket.byteIs, MIDIPacket.read, cAnd, hb, hc, hcf]
      · have hbf : (b == 0) = false := by simpa using hb
        simp [hasSignature, MIDIPacket.byteIs, MIDIPacket.read, cAnd, hb, hbf]
    · simp at h5

theorem processPacket_frame (e : MIDIUniqueID) (p : MIDIPacket) (q : List MidiMessage)
    (hfirst : p.data.head? = some 0xf0) (hlast : p.data.getLast? = some 0xf7) :
    processPacket e p q =
      if p.data.getD 1 0 = 0x00 ∧ p.data.getD 2 0 = 0x20 ∧ p.data.getD 3 0 = 0x76 ∧
          p.data.getD 4 0 = 0x03 then
        (if 7 ≤ p.length then
          .ok (q ++ [{ endpoint_ := e, status_ := 0xf0, data_0 := p.data.getD 5 0,
                       data_1 := p.data.getD 6 0 }])
        else .error (.outOfRange 6))
      else .ok q := by
  have hfr := isSysexFrame_true p hfirst hlast
  have hsig := hasSignature_frame p hfirst hlast
  by_cases hs : p.data.getD 1 0 = 0x00 ∧ p.data.getD 2 0 = 0x20 ∧ p.data.getD 3 0 = 0x76 ∧
      p.data.getD 4 0 = 0x03
  · have h6 : 6 ≤ p.length := by
      obtain ⟨data⟩ := p
      simp only [MIDIPacket.length]
      rcases data with _ | ⟨a, _ | ⟨b, _ | ⟨c, _ | ⟨d, _ | ⟨e1, _ | ⟨f, rest⟩⟩⟩⟩⟩⟩
      · simp at hfirst
      · simp at hs
      · simp at hs
      · simp at hs
      · simp at hs
      · simp only [List.getLast?_cons_cons, List.getLast?_singleton, Option.some.injEq] at hlast
        subst hlast
        simp at hs
      · simp
    have h5 := read_of_lt p 5 (by omega)
    by_cases h7 : 7 ≤ p.length
    · have h6r := read_of_lt p 6 (by omega)
      simp only [processPacket, hfr, hsig, hs, decide_True, and_self, h5, h6r,
        xcode_setData_fields, if_true, h7]
    · have h6r := read_of_le p 6 (by omega)
      simp only [processPacket, hfr, hsig, hs, decide_True, and_self, h5, h6r, if_true, h7,
        if_false]
  · simp only [processPacket, hfr, hsig, hs, decide_False, if_false]

/-- The parser has a defined result on every packet of length at least 1 except
the six-byte frame `F0 00 20 76 03 F7`. -/
theorem processPacket_defined (e : MIDIUniqueID) (p : MIDIPacket) (q : List MidiMessage)
    (hlen : 1 ≤ p.length) (hne : p ≠ shortVendorPacket) :
    ∃ q1, processPacket e p q = .ok q1 := by
  obtain ⟨b0, hfirst⟩ : ∃ b0, p.data.head? = some b0 := by
    obtain ⟨data⟩ := p
    cases data with
    | nil => simp [MIDIPacket.length] at hlen
    | cons a l => exact ⟨a, rfl⟩
  by_cases hframe : b0 = 0xf0 ∧ p.data.getLast? = some 0xf7
  · obtain ⟨hb, hlast⟩ := hframe
    subst hb
    rw [processPacket_frame e p q hfirst hlast]
    split
    · rename_i hs
      split
      · exact ⟨_, rfl⟩
      · rename_i h7
        exfalso
        apply hne
        obtain ⟨data⟩ := p
        simp only [MIDIPacket.length] at h7
        rcases data with _ | ⟨a, _ | ⟨b, _ | ⟨c, _ | ⟨d, _ | ⟨e1, _ | ⟨f, _ | ⟨g, rest⟩⟩⟩⟩⟩⟩⟩
        · simp at hfirst
        · simp at hs
        · simp at hs
        · simp at hs
        · simp at hs
        · simp only [List.getLast?_cons_cons, List.getLast?_singleton, Option.some.injEq] at hlast
          subst hlast
          simp at hs
        · simp only [List.getLast?_cons_cons, List.getLast?_singleton, Option.some.injEq] at hlast
          simp only [List.head?_cons, Option.some.injEq] at hfirst
          simp only [List.getD_cons_succ, List.getD_cons_zero] at hs
          obtain ⟨h1, h2, h3, h4⟩ := hs
          subst hfirst hlast h1 h2 h3 h4
          rfl
        · simp at h7
    · exact ⟨_, rfl⟩
  · by_cases hge : b0 ≥ 0x80
    · exact ⟨_, processPacket_channel e p q b0 hfirst hge hframe⟩
    · exact ⟨_, processPacket_low e p q b0 hfirst (by omega)⟩

/-- C9, as amended (which packets give a message with status `0xF0`).  For a
packet with first byte `b0` handled on endpoint `e`: (a) if it is an F0...F7
frame, it pushes nothing when its bytes 1..4 are not `00 20 76 03`, and the
single message `(e, 0xF0, byte 5, byte 6)` when they are and its length is at
least 7; whenever its run is defined it pushes nothing else; (b) if it is not
such a frame and `b0 >= 0x80`, it pushes the channel messages of its bytes,
among which there is one with status `0xF0` exactly when the packet holds a
byte `0xF0` (one message per such byte); (c) if `b0 < 0x80` it pushes
nothing. -/
theorem status_f0_messages (s : State) (e : MIDIUniqueID) (p : MIDIPacket) (b0 : Nat)
    (hfirst : p.data.head? = some b0) :
    (b0 = 0xf0 → p.data.getLast? = some 0xf7 →
      (¬ (p.data.getD 1 0 = 0x00 ∧ p.data.getD 2 0 = 0x20 ∧ p.data.getD 3 0 = 0x76 ∧
          p.data.getD 4 0 = 0x03) → MIDIReadProc s [p] e = .ok s) ∧
      ((p.data.getD 1 0 = 0x00 ∧ p.data.getD 2 0 = 0x20 ∧ p.data.getD 3 0 = 0x76 ∧
          p.data.getD 4 0 = 0x03) → 7 ≤ p.length →
        MIDIReadProc s [p] e =
          .ok { s with message_queue := s.message_queue ++
            [{ endpoint_ := e, status_ := 0xf0, data_0 := p.data.getD 5 0,
               data_1 := p.data.getD 6 0 }] }) ∧
      (∀ s1, MIDIReadProc s [p] e = .ok s1 →
        s1 = s ∨
          (7 ≤ p.length ∧
            (p.data.getD 1 0 = 0x00 ∧ p.data.getD 2 0 = 0x20 ∧ p.data.getD 3 0 = 0x76 ∧
              p.data.getD 4 0 = 0x03) ∧
            s1 = { s with message_queue := s.message_queue ++
              [{ endpoint_ := e, status_ := 0xf0, data_0 := p.data.getD 5 0,
                 data_1 := p.data.getD 6 0 }] }))) ∧
    (b0 ≥ 0x80 → ¬ (b0 = 0xf0 ∧ p.data.getLast? = some 0xf7) →
      MIDIReadProc s [p] e =
          .ok { s with message_queue := s.message_queue ++ specChannelMessages e p.data } ∧
        ((∃ m ∈ specChannelMessages e p.data, m.status_ = 0xf0) ↔ 0xf0 ∈ p.data) ∧
        ((specChannelMessages e p.data).map (fun m => m.status_)).count 0xf0 =
          p.data.count 0xf0) ∧
    (b0 < 0x80 → MIDIReadProc s [p] e = .ok s) := by
  refine ⟨?_, ?_, ?_⟩
  · intro hb hlast
    subst hb
    have hframe := processPacket_frame e p s.message_queue hfirst hlast
    refine ⟨?_, ?_, ?_⟩
    · intro hs
      rw [if_neg hs] at hframe
      exact MIDIReadProc_single s e p _ hframe
    · intro hs h7
      rw [if_pos hs, if_pos h7] at hframe
      exact MIDIReadProc_single s e p _ hframe
    · intro s1 h
      by_cases hs : p.data.getD 1 0 = 0x00 ∧ p.data.getD 2 0 = 0x20 ∧ p.data.getD 3 0 = 0x76 ∧
          p.data.getD 4 0 = 0x03
      · by_cases h7 : 7 ≤ p.length
        · rw [if_pos hs, if_pos h7] at hframe
          rw [MIDIReadProc_single s e p _ hframe] at h
          injection h with h
          exact Or.inr ⟨h7, hs, h.symm⟩
        · rw [if_pos hs, if_neg h7] at hframe
          rw [MIDIReadProc_single_error s e p _ hframe] at h
          cases h
      · rw [if_neg hs] at hframe
        rw [MIDIReadProc_single s e p _ hframe] at h
        injection h with h
        exact Or.inl h.symm
  · intro hstatus hframe
    refine ⟨MIDIReadProc_single s e p _
      (processPacket_channel e p s.message_queue b0 hfirst hstatus hframe), ?_, ?_⟩
    · have hmap := specChannelMessages_status e p.data
      constructor
      · rintro ⟨m, hm, hst⟩
        have hmem : m.status_ ∈ (specChannelMessages e p.data).map (fun m => m.status_) :=
          List.mem_map_of_mem _ hm
        rw [hmap, hst] at hmem
        exact (List.mem_filter.mp hmem).1
      · intro hmem
        have hf : 0xf0 ∈ p.data.filter (fun b => decide (b ≥ 0x80)) :=
          List.mem_filter.mpr ⟨hmem, by decide⟩
        rw [← hmap] at hf
        obtain ⟨m, hm, hst⟩ := List.mem_map.mp hf
        exact ⟨m, hm, hst⟩
    · rw [specChannelMessages_status, List.count_filter]
      decide
  · intro hlow
    exact MIDIReadProc_single s e p _ (processPacket_low e p s.message_queue b0 hfirst hlow)

/-- The parts (b) and (a) of C9 as amended, at `F0 01 02` (no closing `F7`) and
at the vendor packet. -/
theorem status_f0_messages_witness :
    (MIDIReadProc State.initial [{ data := [0xF0, 0x01, 0x02] }] 7 =
        .ok { State.initial with message_queue :=
          (State.initial.message_queue ++ specChannelMessages 7 ([0xF0, 0x01, 0x02])) } ∧
      ((∃ m ∈ specChannelMessages 7 ([0xF0, 0x01, 0x02]), m.status_ = 0xf0) ↔
        0xf0 ∈ [0xF0, 0x01, 0x02]) ∧
      ((specChannelMessages 7 ([0xF0, 0x01, 0x02])).map (fun m => m.status_)).count 0xf0 =
        [0xF0, 0x01, 0x02].count 0xf0) ∧
    MIDIReadProc State.initial [vendorPacket] 7 =
      .ok { State.initial with message_queue := State.initial.message_queue ++
        [{ endpoint_ := 7, status_ := 0xf0, data_0 := vendorPacket.data.getD 5 0,
           data_1 := vendorPacket.data.getD 6 0 }] } :=
  ⟨(status_f0_messages State.initial 7 { data := [0xF0, 0x01, 0x02] } 0xF0 rfl).2.1
      (by decide) (by decide),
    ((status_f0_messages State.initial 7 vendorPacket 0xF0 rfl).1 rfl rfl).2.1
      (by decide) (by decide)⟩

/-- C9, the claim as stated fails: the packet `F0 01 02`, which does not end
with `0xF7`, and the packet `90 F0`, which holds `0xF0` after a channel status
byte, each push a message with status `0xF0`. -/
theorem status_f0_counterexample :
    MIDIReadProc State.initial [{ data := [0xF0, 0x01, 0x02] }] 7 =
        .ok { State.initial with message_queue :=
          [{ endpoint_ := 7, status_ := 0xF0, data_0 := 0x01, data_1 := 0x02 }] } ∧
      MIDIReadProc State.initial [{ data := [0x90, 0xF0] }] 7 =
        .ok { State.initial with message_queue :=
          [{ endpoint_ := 7, status_ := 0x90, data_0 := 0, data_1 := 0 },
           { endpoint_ := 7, status_ := 0xF0, data_0 := 0, data_1 := 0 }] } :=
  ⟨rfl, rfl⟩

end Xcode

/-! ## The reset of the Core MIDI backend -/

namespace Xcode

theorem length_resize (v : List Int) (n : Nat) : (resize v n).length = n := by
  unfold resize
  rw [List.length_append, List.length_take, List.length_replicate]
  omega

theorem sourceLoop_spec (port : Nat) :
    ∀ (srcs : List SourceAnswer) (i : Nat) (pre tail : List MIDIUniqueID),
      pre.length = i → tail.length = srcs.length →
      (sourceLoop port srcs i (pre ++ tail)).1 = srcs.all SourceAnswer.succeeds ∧
        (srcs.all SourceAnswer.succeeds = true →
          (sourceLoop port srcs i (pre ++ tail)).2.1 =
            pre ++ srcs.filterMap (fun a => a.uniqueID)) := by
  intro srcs
  induction srcs with
  | nil =>
    intro i pre tail _ ht
    have : tail = [] := List.length_eq_zero.mp ht
    subst this
    simp [sourceLoop]
  | cons a rest ih =>
    intro i pre tail hp ht
    cases tail with
    | nil => simp at ht
    | cons t tail1 =>
      simp only [List.length_cons, Nat.add_right_cancel_iff] at ht
      by_cases he : a.endpoint = 0
      · simp [sourceLoop, he, SourceAnswer.succeeds]
      · cases hid : a.uniqueID with
        | none => simp [sourceLoop, he, hid, SourceAnswer.succeeds]
        | some id =>
          have hset : (pre ++ t :: tail1).set i id = (pre ++ [id]) ++ tail1 := by
            rw [List.set_append_right i id (by omega)]
            simp [hp]
          cases hc : a.connect with
          | false => simp [sourceLoop, he, hid, hc, SourceAnswer.succeeds]
          | true =>
            have h := ih (i + 1) (pre ++ [id]) tail1 (by simp [hp]) ht
            simp only [sourceLoop, he, hid, hc, if_true, if_false, hset, List.all_cons,
              SourceAnswer.succeeds, List.filterMap_cons]
            have hne : (a.endpoint != 0) = true := by simpa using he
            refine ⟨by simpa [hne] using h.1, ?_⟩
            intro hall
            have hrest : rest.all SourceAnswer.succeeds = true := by
              simpa [hne, SourceAnswer.succeeds] using hall
            rw [h.2 hrest]
            simp

theorem destinationLoop_spec :
    ∀ (dsts : List DestinationAnswer) (i : Nat) (pre tail : List MIDIUniqueID),
      pre.length = i → tail.length = dsts.length →
      (destinationLoop dsts i (pre ++ tail)).1 = dsts.all DestinationAnswer.succeeds ∧
        (dsts.all DestinationAnswer.succeeds = true →
          (destinationLoop dsts i (pre ++ tail)).2.1 =
            pre ++ dsts.filterMap (fun a => a.uniqueID)) := by
  intro dsts
  induction dsts with
  | nil =>
    intro i pre tail _ ht
    have : tail = [] := List.length_eq_zero.mp ht
    subst this
    simp [destinationLoop]
  | cons a rest ih =>
    intro i pre tail hp ht
    cases tail with
    | nil => simp at ht
    | cons t tail1 =>
      simp only [List.length_cons, Nat.add_right_cancel_iff] at ht
      by_cases he : a.endpoint = 0
      · simp [destinationLoop, he, DestinationAnswer.succeeds]
      · cases hid : a.uniqueID with
        | none => simp [destinationLoop, he, hid, DestinationAnswer.succeeds]
        | some id =>
          have hset : (pre ++ t :: tail1).set i id = (pre ++ [id]) ++ tail1 := by
            rw [List.set_append_right i id (by omega)]
            simp [hp]
          have h := ih (i + 1) (pre ++ [id]) tail1 (by simp [hp]) ht
          simp only [destinationLoop, he, hid, if_false, hset, List.all_cons,
            DestinationAnswer.succeeds, List.filterMap_cons]
          have hne : (a.endpoint != 0) = true := by simpa using he
          refine ⟨by simpa [hne] using h.1, ?_⟩
          intro hall
          have hrest : rest.all DestinationAnswer.succeeds = true := by
            simpa [hne, DestinationAnswer.succeeds] using hall
          rw [h.2 hrest]
          simp

theorem sourceLoop_no_send (port : Nat) :
    ∀ (srcs : List SourceAnswer) (i : Nat) (ids : List MIDIUniqueID),
      (sourceLoop port srcs i ids).2.2.any OSCall.isSend = false := by
  intro srcs
  induction srcs with
  | nil => intro i ids; rfl
  | cons a rest ih =>
    intro i ids
    by_cases he : a.endpoint = 0
    · simp [sourceLoop, he, OSCall.isSend]
    · cases hid : a.uniqueID with
      | none => simp [sourceLoop, he, hid, OSCall.isSend]
      | some id =>
        cases hc : a.connect with
        | false => simp [sourceLoop, he, hid, hc, OSCall.isSend]
        | true =>
          have h := ih (i + 1) (ids.set i id)
          simp [sourceLoop, he, hid, hc, OSCall.isSend, h]

theorem destinationLoop_no_send :
    ∀ (dsts : List DestinationAnswer) (i : Nat) (ids : List MIDIUniqueID),
      (destinationLoop dsts i ids).2.2.any OSCall.isSend = false := by
  intro dsts
  induction dsts with
  | nil => intro i ids; rfl
  | cons a rest ih =>
    intro i ids
    by_cases he : a.endpoint = 0
    · simp [destinationLoop, he, OSCall.isSend]
    · cases hid : a.uniqueID with
      | none => simp [destinationLoop, he, hid, OSCall.isSend]
      | some id =>
        have h := ih (i + 1) (ids.set i id)
        simp [destinationLoop, he, hid, OSCall.isSend, h]

theorem ResetIfRequired_no_send (os : OS) (s : State) :
    (ResetIfRequired os s).calls.any OSCall.isSend = false := by
  have hsl := sourceLoop_no_send
  have hdl := destinationLoop_no_send
  unfold ResetIfRequired
  cases hr : s.reset_required
  · rfl
  · simp only [Bool.not_true, Bool.false_eq_true, if_false]
    have hc0 : (if s.midi_client ≠ 0 then [OSCall.MIDIClientDispose s.midi_client] else []).any
        OSCall.isSend = false := by
      split <;> rfl
    cases h1 : os.clientCreate with
    | none => simp [hc0, OSCall.isSend]
    | some client =>
      cases h2 : os.inputPortCreate with
      | none => simp [hc0, OSCall.isSend]
      | some portIn =>
        simp only []
        split
        · simp [hc0, OSCall.isSend, hsl]
        · cases h4 : os.outputPortCreate with
          | none => simp [hc0, OSCall.isSend, hsl]
          | some portOut =>
            simp only []
            split <;> simp [hc0, OSCall.isSend, hsl, hdl]

theorem ResetIfRequired_idle (os : OS) (s : State) (hr : s.reset_required = false) :
    ResetIfRequired os s = { ret := true, state := s, calls := [] } := by
  unfold ResetIfRequired
  simp [hr]

theorem ResetIfRequired_spec (os : OS) (s : State) (hr : s.reset_required = true) :
    (ResetIfRequired os s).ret = os.allStepsSucceed ∧
      (ResetIfRequired os s).state.reset_required = !os.allStepsSucceed ∧
      (os.allStepsSucceed = true →
        (ResetIfRequired os s).state.source_ids = os.sourceIDs ∧
        (ResetIfRequired os s).state.destination_ids = os.destinationIDs) := by
  unfold ResetIfRequired OS.allStepsSucceed OS.sourceIDs OS.destinationIDs
  simp only [hr, Bool.not_true, Bool.false_eq_true, if_false]
  cases h1 : os.clientCreate with
  | none => simp [hr]
  | some client =>
    cases h2 : os.inputPortCreate with
    | none => simp [hr]
    | some portIn =>
      have hs := sourceLoop_spec portIn os.sources 0 [] (resize s.source_ids os.sources.length)
        rfl (length_resize _ _)
      simp only [List.nil_append] at hs
      simp only [Option.isSome_some, Bool.true_and]
      cases hsl : (sourceLoop portIn os.sources 0 (resize s.source_ids os.sources.length)).1 with
      | false =>
        have hall : os.sources.all SourceAnswer.succeeds = false := by rw [← hs.1, hsl]
        simp [hsl, hall, hr]
      | true =>
        have hall : os.sources.all SourceAnswer.succeeds = true := by rw [← hs.1, hsl]
        have hids := hs.2 hall
        simp only [hsl, Bool.not_true, Bool.false_eq_true, if_false, hall, Bool.true_and]
        cases h4 : os.outputPortCreate with
        | none => simp [hr]
        | some portOut =>
          have hd := destinationLoop_spec os.destinations 0 []
            (resize s.destination_ids os.destinations.length) rfl (length_resize _ _)
          simp only [List.nil_append] at hd
          simp only [Option.isSome_some, Bool.true_and]
          cases hdl : (destinationLoop os.destinations 0
              (resize s.destination_ids os.destinations.length)).1 with
          | false =>
            have halld : os.destinations.all DestinationAnswer.succeeds = false := by
              rw [← hd.1, hdl]
            simp [hdl, halld, hr]
          | true =>
            have halld : os.destinations.all DestinationAnswer.succeeds = true := by
              rw [← hd.1, hdl]
            have hidsd := hd.2 halld
            simp [hdl, halld, hids, hidsd]

/-- C7 (dirty-flag discipline of `ResetIfRequired`).  (1) With
`reset_required` false, `ResetIfRequired` returns true, issues no Core MIDI
call and leaves every global as it was.  (2) With `reset_required` true and
some step of the reconstruction failing, it returns false, `reset_required`
is still true, and each boundary operation returns its sentinel: 0 for the two
counts, the two index lookups and the dequeue (the queue is left as it was),
"(not ready)" for the two names, and no `MIDISend` for the send.  (3)
`reset_required` is false afterwards only if it was false before or every step
succeeded; in the latter case the call returns true and `source_ids`,
`destination_ids` hold the unique IDs of the sources and destinations of
Core MIDI in enumeration order. -/
theorem dirty_flag_discipline (os : OS) (s : State) (index : Int) (id msg : Nat) :
    (s.reset_required = false →
      (ResetIfRequired os s).ret = true ∧ (ResetIfRequired os s).calls = [] ∧
        (ResetIfRequired os s).state = s) ∧
    (s.reset_required = true → os.allStepsSucceed = false →
      (ResetIfRequired os s).ret = false ∧
        (ResetIfRequired os s).state.reset_required = true ∧
        (MidiJackCountSources os s).ret = 0 ∧
        (MidiJackCountDestinations os s).ret = 0 ∧
        (MidiJackGetSourceIDAtIndex os s index).ret = 0 ∧
        (MidiJackGetDestinationIDAtIndex os s index).ret = 0 ∧
        (MidiJackDequeueIncomingData os s).ret = 0 ∧
        (MidiJackDequeueIncomingData os s).state.message_queue = s.message_queue ∧
        (MidiJackGetSourceName os s id).ret = "(not ready)" ∧
        (MidiJackGetDestinationName os s id).ret = "(not ready)" ∧
        (MidiJackSendMessage os s msg).calls.any OSCall.isSend = false ∧
        (MidiJackDequeueIncomingData os s).state.reset_required = true ∧
        (MidiJackSendMessage os s msg).state.reset_required = true) ∧
    ((ResetIfRequired os s).state.reset_required = false →
      s.reset_required = false ∨ os.allStepsSucceed = true) ∧
    (s.reset_required = true → os.allStepsSucceed = true →
      (ResetIfRequired os s).ret = true ∧
        (ResetIfRequired os s).state.reset_required = false ∧
        (ResetIfRequired os s).state.source_ids = os.sourceIDs ∧
        (ResetIfRequired os s).state.destination_ids = os.destinationIDs) := by
  refine ⟨?_, ?_, ?_, ?_⟩
  · intro hr
    rw [ResetIfRequired_idle os s hr]
    exact ⟨rfl, rfl, rfl⟩
  · intro hr hfail
    obtain ⟨hret, hflag, _⟩ := ResetIfRequired_spec os s hr
    rw [hfail] at hret hflag
    have hq := dequeue_of_reset_failed os s hret
    refine ⟨hret, hflag, ?_, ?_, ?_, ?_, hq.1, hq.2, ?_, ?_, ?_, ?_, ?_⟩
    · simp [MidiJackCountSources, hret]
    · simp [MidiJackCountDestinations, hret]
    · simp [MidiJackGetSourceIDAtIndex, hret]
    · simp [MidiJackGetDestinationIDAtIndex, hret]
    · simp [MidiJackGetSourceName, hret]
    · simp [MidiJackGetDestinationName, hret]
    · simp only [MidiJackSendMessage, hret, Bool.not_false, if_true]
      exact ResetIfRequired_no_send os s
    · simp only [MidiJackDequeueIncomingData, hret, Bool.not_false, if_true]
      exact hflag
    · simp only [MidiJackSendMessage, hret, Bool.not_false, if_true]
      exact hflag
  · intro hafter
    cases hr : s.reset_required with
    | false => exact Or.inl rfl
    | true =>
      right
      have hflag := (ResetIfRequired_spec os s hr).2.1
      rw [hafter] at hflag
      cases hall : os.allStepsSucceed with
      | true => rfl
      | false => rw [hall] at hflag; cases hflag
  · intro hr hall
    obtain ⟨hret, hflag, hids⟩ := ResetIfRequired_spec os s hr
    rw [hall] at hret hflag
    exact ⟨hret, hflag, (hids hall).1, (hids hall).2⟩

/-- The parts of C7 at the initial state: idle after a reset, failing with no
client, and rebuilding the two ID lists. -/
theorem dirty_flag_discipline_witness :
    ((ResetIfRequired OS.down { State.initial with reset_required := false }).ret = true ∧
      (ResetIfRequired OS.down { State.initial with reset_required := false }).calls = [] ∧
      (ResetIfRequired OS.down { State.initial with reset_required := false }).state =
        { State.initial with reset_required := false }) ∧
    (MidiJackCountSources OS.down State.initial).ret = 0 ∧
    (MidiJackGetSourceName OS.down State.initial 11).ret = "(not ready)" ∧
    (ResetIfRequired OS.up State.initial).state.source_ids = [11, -12] ∧
    (ResetIfRequired OS.up State.initial).state.destination_ids = [21] :=
  ⟨(dirty_flag_discipline OS.down { State.initial with reset_required := false } 0 11 0).1 rfl,
    ((dirty_flag_discipline OS.down State.initial 0 11 0).2.1 rfl rfl).2.2.1,
    ((dirty_flag_discipline OS.down State.initial 0 11 0).2.1 rfl rfl).2.2.2.2.2.2.2.2.1,
    ((dirty_flag_discipline OS.up State.initial 0 11 0).2.2.2 rfl rfl).2.2.1,
    ((dirty_flag_discipline OS.up State.initial 0 11 0).2.2.2 rfl rfl).2.2.2⟩

end Xcode

/-! ## The inbound queue -/

namespace Xcode

theorem foldl_push_queue (msgs : List MidiMessage) :
    ∀ s : State, (msgs.foldl push s).message_queue = s.message_queue ++ msgs := by
  induction msgs with
  | nil => intro s; simp
  | cons m rest ih =>
    intro s
    rw [List.foldl_cons, ih]
    simp [push]

theorem dequeueMany_fifo :
    ∀ (msgs : List MidiMessage) (oss : List OS) (s : State),
      s.message_queue = msgs → oss.length = msgs.length → resetsSucceed oss s = true →
      (dequeueMany oss s).1 = msgs.map MidiMessage.Encode64Bit ∧
        (dequeueMany oss s).2.message_queue = [] := by
  intro msgs
  induction msgs with
  | nil =>
    intro oss s hq hl _
    have : oss = [] := List.length_eq_zero.mp hl
    subst this
    exact ⟨rfl, hq⟩
  | cons m rest ih =>
    intro oss s hq hl hr
    cases oss with
    | nil => simp at hl
    | cons os oss1 =>
      simp only [resetsSucceed, Bool.and_eq_true] at hr
      obtain ⟨hret, hqueue⟩ := dequeue_of_reset_ok os s m rest hq hr.1
      have h := ih oss1 (MidiJackDequeueIncomingData os s).state hqueue
        (by simpa using hl) hr.2
      simp only [dequeueMany, List.map_cons, hret, h.1, h.2, and_self]

end Xcode

namespace VisualStudio

theorem closeSources_queue :
    ∀ (pending : List InputHandle) (s : State),
      (closeSources pending s).1.message_queue = s.message_queue := by
  intro pending
  induction pending with
  | nil => intro s; rfl
  | cons h rest ih =>
    intro s
    simp only [closeSources, CloseSource]
    rw [ih]

theorem closeDestinations_queue :
    ∀ (pending : List OutputHandle) (s : State),
      (closeDestinations pending s).1.message_queue = s.message_queue := by
  intro pending
  induction pending with
  | nil => intro s; rfl
  | cons h rest ih =>
    intro s
    simp only [closeDestinations, CloseDestination]
    rw [ih]

theorem openSources_queue :
    ∀ (answers : List (Option (InputHandle × Bool))) (i : Nat) (s : State),
      (openSources answers i s).1.message_queue = s.message_queue := by
  intro answers
  induction answers with
  | nil => intro i s; rfl
  | cons a rest ih =>
    intro i s
    simp only [openSources]
    rw [ih]
    unfold OpenSource
    split
    · rfl
    · split <;> rfl

theorem openDestinations_queue :
    ∀ (answers : List (Option OutputHandle)) (i : Nat) (s : State),
      (openDestinations answers i s).1.message_queue = s.message_queue := by
  intro answers
  induction answers with
  | nil => intro i s; rfl
  | cons a rest ih =>
    intro i s
    simp only [openDestinations]
    rw [ih]
    unfold OpenDestination
    split <;> rfl

theorem RefreshDevices_queue (os : OS) (s : State) :
    (RefreshDevices os s).1.message_queue = s.message_queue := by
  simp only [RefreshDevices, OpenAllDevices]
  rw [openDestinations_queue, openSources_queue, closeDestinations_queue, closeSources_queue]

theorem win_dequeue_front (os : OS) (s : State) (m : MidiMessage) (rest : List MidiMessage)
    (hq : s.message_queue = m :: rest) :
    (MidiJackDequeueIncomingData os s).ret = m.Encode64Bit ∧
      (MidiJackDequeueIncomingData os s).state.message_queue = rest := by
  have hqueue := RefreshDevices_queue os s
  rw [hq] at hqueue
  unfold MidiJackDequeueIncomingData
  simp only []
  split
  · rename_i h
    rw [h] at hqueue
    cases hqueue
  · rename_i m1 rest1 h
    rw [h] at hqueue
    injection hqueue with h1 h2
    subst h1 h2
    exact ⟨rfl, rfl⟩

theorem win_dequeue_empty (os : OS) (s : State) (hq : s.message_queue = []) :
    (MidiJackDequeueIncomingData os s).ret = 0 ∧
      (MidiJackDequeueIncomingData os s).state.message_queue = [] := by
  have hqueue := RefreshDevices_queue os s
  rw [hq] at hqueue
  unfold MidiJackDequeueIncomingData
  simp only []
  split
  · exact ⟨rfl, hqueue⟩
  · rename_i m rest h
    rw [h] at hqueue
    cases hqueue

theorem win_foldl_push_queue (msgs : List MidiMessage) :
    ∀ s : State, (msgs.foldl push s).message_queue = s.message_queue ++ msgs := by
  induction msgs with
  | nil => intro s; simp
  | cons m rest ih =>
    intro s
    rw [List.foldl_cons, ih]
    simp [push]

theorem win_dequeueMany_fifo :
    ∀ (msgs : List MidiMessage) (oss : List OS) (s : State),
      s.message_queue = msgs → oss.length = msgs.length →
      (dequeueMany oss s).1 = msgs.map MidiMessage.Encode64Bit ∧
        (dequeueMany oss s).2.message_queue = [] := by
  intro msgs
  induction msgs with
  | nil =>
    intro oss s hq hl
    have : oss = [] := List.length_eq_zero.mp hl
    subst this
    exact ⟨rfl, hq⟩
  | cons m rest ih =>
    intro oss s hq hl
    cases oss with
    | nil => simp at hl
    | cons os oss1 =>
      obtain ⟨hret, hqueue⟩ := win_dequeue_front os s m rest hq
      have h := ih oss1 (MidiJackDequeueIncomingData os s).state hqueue (by simpa using hl)
      simp only [dequeueMany, List.map_cons, hret, h.1, h.2, and_self]

end VisualStudio

namespace Xcode

theorem foldl_push_eq (new : List MidiMessage) :
    ∀ s : State, new.foldl push s = { s with message_queue := s.message_queue ++ new } := by
  induction new with
  | nil => intro s; simp
  | cons m rest ih =>
    intro s
    rw [List.foldl_cons, ih]
    simp [push]

theorem messageLoop_append (e : MIDIUniqueID) (p : MIDIPacket) :
    ∀ (fuel offs : Nat) (q q1 : List MidiMessage),
      messageLoop e p fuel offs q = .ok q1 → ∃ new, q1 = q ++ new := by
  intro fuel
  induction fuel with
  | zero => intro offs q q1 h; simp [messageLoop] at h
  | succ f ih =>
    intro offs q q1 h
    by_cases hlt : offs < p.length
    · cases hread : p.read offs with
      | error err => simp [messageLoop, hlt, hread] at h
      | ok status =>
        cases hdl : dataLoop p (p.length + 1) 0 (offs + 1) (MidiMessage.new e status) with
        | error err => simp [messageLoop, hlt, hread, hdl] at h
        | ok r =>
          obtain ⟨offs1, message⟩ := r
          simp only [messageLoop, hlt, hread, hdl, if_true] at h
          obtain ⟨new, hnew⟩ := ih offs1 (q ++ [message]) q1 h
          exact ⟨message :: new, by rw [hnew]; simp⟩
    · simp only [messageLoop, hlt, if_false] at h
      injection h with h
      exact ⟨[], by simp [h]⟩

theorem processPacket_append (e : MIDIUniqueID) (p : MIDIPacket) (q q1 : List MidiMessage)
    (h : processPacket e p q = .ok q1) : ∃ new, q1 = q ++ new := by
  unfold processPacket at h
  split at h
  · cases h
  · split at h
    · cases h
    · split at h
      · cases h
      · split at h
        · cases h
        · injection h with h
          exact ⟨_, h.symm⟩
    · injection h with h
      exact ⟨[], by simp [h]⟩
  · split at h
    · cases h
    · split at h
      · exact messageLoop_append e p _ _ q q1 h
      · injection h with h
        exact ⟨[], by simp [h]⟩

theorem processPackets_append (e : MIDIUniqueID) :
    ∀ (packets : List MIDIPacket) (q q1 : List MidiMessage),
      processPackets e packets q = .ok q1 → ∃ new, q1 = q ++ new := by
  intro packets
  induction packets with
  | nil =>
    intro q q1 h
    simp only [processPackets] at h
    injection h with h
    exact ⟨[], by simp [h]⟩
  | cons p rest ih =>
    intro q q1 h
    cases hp : processPacket e p q with
    | error err => simp [processPackets, hp] at h
    | ok q2 =>
      simp only [processPackets, hp] at h
      obtain ⟨new1, h1⟩ := processPacket_append e p q q2 hp
      obtain ⟨new2, h2⟩ := ih q2 q1 h
      exact ⟨new1 ++ new2, by rw [h2, h1]; simp⟩

theorem MIDIReadProc_pushes (s s1 : State) (packets : List MIDIPacket) (e : MIDIUniqueID)
    (h : MIDIReadProc s packets e = .ok s1) :
    ∃ new : List MidiMessage, s1 = new.foldl push s := by
  unfold MIDIReadProc at h
  cases hp : processPackets e packets s.message_queue with
  | error err => simp [hp] at h
  | ok q =>
    simp only [hp] at h
    injection h with h
    obtain ⟨new, hnew⟩ := processPackets_append e packets _ q hp
    exact ⟨new, by rw [foldl_push_eq, ← h, hnew]⟩

end Xcode

/-- C5 (FIFO queue, both backends).  Starting from an empty queue, after the
input callbacks pushed `m1..mn` in that order, `n` successive calls of
`MidiJackDequeueIncomingData` (on the Core MIDI backend: none of them with a
failing `ResetIfRequired`) return `Encode64Bit(m1), ..., Encode64Bit(mn)` in
that order and leave the queue empty; one call on a queue `m :: rest` returns
`Encode64Bit(m)` and leaves `rest`; every call on an empty queue returns 0 and
leaves the queue empty.  The callbacks push at the back only: `MidiInProc` with
`MIM_DATA` pushes one message, `MIDIReadProc` pushes a list of messages. -/
theorem fifo_queue (s : Xcode.State) (msgs : List Xcode.MidiMessage) (oss : List Xcode.OS)
    (ws : VisualStudio.State) (wmsgs : List VisualStudio.MidiMessage)
    (woss : List VisualStudio.OS)
    (hs : s.message_queue = []) (hl : oss.length = msgs.length)
    (hr : Xcode.resetsSucceed oss (msgs.foldl Xcode.push s) = true)
    (hws : ws.message_queue = []) (hwl : woss.length = wmsgs.length) :
    ((Xcode.dequeueMany oss (msgs.foldl Xcode.push s)).1 =
        msgs.map Xcode.MidiMessage.Encode64Bit ∧
      (Xcode.dequeueMany oss (msgs.foldl Xcode.push s)).2.message_queue = []) ∧
    ((VisualStudio.dequeueMany woss (wmsgs.foldl VisualStudio.push ws)).1 =
        wmsgs.map VisualStudio.MidiMessage.Encode64Bit ∧
      (VisualStudio.dequeueMany woss (wmsgs.foldl VisualStudio.push ws)).2.message_queue = []) ∧
    (∀ (os : Xcode.OS) (t : Xcode.State) (m : Xcode.MidiMessage) (rest : List Xcode.MidiMessage),
      t.message_queue = m :: rest → (Xcode.ResetIfRequired os t).ret = true →
      (Xcode.MidiJackDequeueIncomingData os t).ret = m.Encode64Bit ∧
        (Xcode.MidiJackDequeueIncomingData os t).state.message_queue = rest) ∧
    (∀ (os : VisualStudio.OS) (t : VisualStudio.State) (m : VisualStudio.MidiMessage)
        (rest : List VisualStudio.MidiMessage),
      t.message_queue = m :: rest →
      (VisualStudio.MidiJackDequeueIncomingData os t).ret = m.Encode64Bit ∧
        (VisualStudio.MidiJackDequeueIncomingData os t).state.message_queue = rest) ∧
    (∀ (os : Xcode.OS) (t : Xcode.State), t.message_queue = [] →
      (Xcode.MidiJackDequeueIncomingData os t).ret = 0 ∧
        (Xcode.MidiJackDequeueIncomingData os t).state.message_queue = []) ∧
    (∀ (os : VisualStudio.OS) (t : VisualStudio.State), t.message_queue = [] →
      (VisualStudio.MidiJackDequeueIncomingData os t).ret = 0 ∧
        (VisualStudio.MidiJackDequeueIncomingData os t).state.message_queue = []) ∧
    (∀ (t : VisualStudio.State) (h p : Nat),
      VisualStudio.MidiInProc t h .MIM_DATA p =
        VisualStudio.push t
          (VisualStudio.MidiMessage.new (VisualStudio.InputHandleToID h) (p % 2 ^ 32))) ∧
    (∀ (t t1 : Xcode.State) (packets : List Xcode.MIDIPacket) (e : Xcode.MIDIUniqueID),
      Xcode.MIDIReadProc t packets e = .ok t1 →
      ∃ new : List Xcode.MidiMessage, t1 = new.foldl Xcode.push t) := by
  refine ⟨?_, ?_, ?_, ?_, ?_, ?_, ?_, ?_⟩
  · exact Xcode.dequeueMany_fifo msgs oss _ (by rw [Xcode.foldl_push_queue, hs]; rfl) hl hr
  · exact VisualStudio.win_dequeueMany_fifo wmsgs woss _
      (by rw [VisualStudio.win_foldl_push_queue, hws]; rfl) hwl
  · intro os t m rest hq hret
    exact Xcode.dequeue_of_reset_ok os t m rest hq hret
  · intro os t m rest hq
    exact VisualStudio.win_dequeue_front os t m rest hq
  · intro os t hq
    exact Xcode.dequeue_of_empty os t hq
  · intro os t hq
    exact VisualStudio.win_dequeue_empty os t hq
  · intro t h p
    rfl
  · intro t t1 packets e h
    exact Xcode.MIDIReadProc_pushes t t1 packets e h

/-- Two messages pushed on each backend and dequeued by two calls: the encoded
values come back in push order. -/
theorem fifo_queue_witness :
    (Xcode.dequeueMany [Xcode.OS.up, Xcode.OS.down]
        ([{ endpoint_ := 11, status_ := 0x90, data_0 := 0x40, data_1 := 0x7F },
          { endpoint_ := -12, status_ := 0x80, data_0 := 0x40, data_1 := 0 }].foldl
            Xcode.push Xcode.State.initial)).1 =
      [11 + 0x90 * 2 ^ 32 + 0x40 * 2 ^ 40 + 0x7F * 2 ^ 48,
        (2 ^ 32 - 12) + 0x80 * 2 ^ 32 + 0x40 * 2 ^ 40] ∧
    (VisualStudio.dequeueMany [VisualStudio.OS.none, VisualStudio.OS.none]
        ([VisualStudio.MidiMessage.new 5 0x7F4090,
          VisualStudio.MidiMessage.new 6 0x004080].foldl
            VisualStudio.push VisualStudio.State.initial)).1 =
      [5 + 0x90 * 2 ^ 32 + 0x40 * 2 ^ 40 + 0x7F * 2 ^ 48, 6 + 0x80 * 2 ^ 32 + 0x40 * 2 ^ 40] :=
  have h := fifo_queue Xcode.State.initial
    [{ endpoint_ := 11, status_ := 0x90, data_0 := 0x40, data_1 := 0x7F },
      { endpoint_ := -12, status_ := 0x80, data_0 := 0x40, data_1 := 0 }]
    [Xcode.OS.up, Xcode.OS.down]
    VisualStudio.State.initial
    [VisualStudio.MidiMessage.new 5 0x7F4090, VisualStudio.MidiMessage.new 6 0x004080]
    [VisualStudio.OS.none, VisualStudio.OS.none]
    rfl rfl (by decide) rfl rfl
  ⟨h.1.1, h.2.1.1⟩

/-! ## The device registry of the WinMM backend -/

namespace VisualStudio

theorem closeSources_spec :
    ∀ (pending : List InputHandle) (s : State),
      closeSources pending s =
        ({ s with
            active_handles_in := s.active_handles_in.filter (fun h => !pending.contains h)
            handles_to_close_in := [] },
          pending.map OSCall.midiInClose) := by
  intro pending
  induction pending with
  | nil => intro s; simp [closeSources]
  | cons top rest ih =>
    intro s
    simp only [closeSources, CloseSource, ih, List.filter_filter, List.map_cons,
      List.singleton_append]
    congr 2
    apply List.filter_congr
    intro h _
    rw [Bool.eq_iff_iff]
    simp only [List.contains_cons, bne, Bool.and_eq_true, Bool.not_eq_true', Bool.or_eq_false_iff,
      List.elem_eq_mem, decide_eq_false_iff_not, beq_eq_false_iff_ne, ne_eq, List.mem_cons]
    tauto

theorem closeDestinations_spec :
    ∀ (pending : List OutputHandle) (s : State),
      closeDestinations pending s =
        ({ s with
            active_handles_out := s.active_handles_out.filter (fun h => !pending.contains h)
            handles_to_close_out := [] },
          pending.map OSCall.midiOutClose) := by
  intro pending
  induction pending with
  | nil => intro s; simp [closeDestinations]
  | cons top rest ih =>
    intro s
    simp only [closeDestinations, CloseDestination, ih, List.filter_filter, List.map_cons,
      List.singleton_append]
    congr 2
    apply List.filter_congr
    intro h _
    rw [Bool.eq_iff_iff]
    simp only [List.contains_cons, bne, Bool.and_eq_true, Bool.not_eq_true', Bool.or_eq_false_iff,
      List.elem_eq_mem, decide_eq_false_iff_not, beq_eq_false_iff_ne, ne_eq, List.mem_cons]
    tauto

theorem count_map_midiInClose (l : List InputHandle) (h : InputHandle) :
    (l.map OSCall.midiInClose).count (OSCall.midiInClose h) = l.count h := by
  induction l with
  | nil => rfl
  | cons a l ih =>
    by_cases ha : a = h
    · subst ha
      simp [ih]
    · have hne : ¬ OSCall.midiInClose a = OSCall.midiInClose h := by
        intro hc
        injection hc with hc
        exact ha hc
      simp [List.count_cons, ih, ha, hne]

theorem count_map_midiOutClose (l : List OutputHandle) (h : OutputHandle) :
    (l.map OSCall.midiOutClose).count (OSCall.midiOutClose h) = l.count h := by
  induction l with
  | nil => rfl
  | cons a l ih =>
    by_cases ha : a = h
    · subst ha
      simp [ih]
    · have hne : ¬ OSCall.midiOutClose a = OSCall.midiOutClose h := by
        intro hc
        injection hc with hc
        exact ha hc
      simp [List.count_cons, ih, ha, hne]

theorem count_midiOutClose_map_in (l : List InputHandle) (h : OutputHandle) :
    (l.map OSCall.midiInClose).count (OSCall.midiOutClose h) = 0 := by
  induction l with
  | nil => rfl
  | cons a l ih => simp [List.count_cons, ih]

theorem count_midiInClose_map_out (l : List OutputHandle) (h : InputHandle) :
    (l.map OSCall.midiOutClose).count (OSCall.midiInClose h) = 0 := by
  induction l with
  | nil => rfl
  | cons a l ih => simp [List.count_cons, ih]

theorem openSources_spec :
    ∀ (answers : List (Option (InputHandle × Bool))) (i : Nat) (s : State),
      (openSources answers i s).1 =
          { s with active_handles_in := s.active_handles_in ++ startedOf answers } ∧
        (∀ h, (openSources answers i s).2.count (OSCall.midiInClose h) =
          (failedOf answers).count h) ∧
        (∀ h, (openSources answers i s).2.count (OSCall.midiOutClose h) = 0) := by
  intro answers
  induction answers with
  | nil => intro i s; simp [openSources, startedOf, failedOf]
  | cons a rest ih =>
    intro i s
    cases a with
    | none =>
      obtain ⟨h1, h2, h3⟩ := ih (i + 1) s
      simp only [openSources, OpenSource, h1, startedOf, failedOf, List.filterMap_cons,
        List.count_append]
      refine ⟨trivial, ?_, ?_⟩
      · intro h
        rw [h2 h]
        simp [failedOf]
      · intro h
        rw [h3 h]
        simp
    | some hb =>
      obtain ⟨handle, started⟩ := hb
      cases started with
      | true =>
        obtain ⟨h1, h2, h3⟩ := ih (i + 1)
          { s with active_handles_in := s.active_handles_in ++ [handle] }
        simp only [openSources, OpenSource, if_true, h1, startedOf, failedOf,
          List.filterMap_cons, List.count_append]
        refine ⟨by simp, ?_, ?_⟩
        · intro h
          rw [h2 h]
          simp [failedOf]
        · intro h
          rw [h3 h]
          simp
      | false =>
        obtain ⟨h1, h2, h3⟩ := ih (i + 1) s
        simp only [openSources, OpenSource, Bool.false_eq_true, if_false, h1, startedOf, failedOf,
          List.filterMap_cons, List.count_append]
        refine ⟨trivial, ?_, ?_⟩
        · intro h
          rw [h2 h]
          by_cases hh : handle = h
          · subst hh
            simp [failedOf, List.count_cons]
            omega
          · have hne : ¬ OSCall.midiInClose handle = OSCall.midiInClose h := by
              intro hc
              injection hc with hc
              exact hh hc
            simp [failedOf, List.count_cons, hh, hne]
        · intro h
          rw [h3 h]
          simp

theorem openDestinations_spec :
    ∀ (answers : List (Option OutputHandle)) (i : Nat) (s : State),
      (openDestinations answers i s).1 =
          { s with active_handles_out :=
              s.active_handles_out ++ answers.filterMap (fun a => a) } ∧
        (∀ h, (openDestinations answers i s).2.count (OSCall.midiInClose h) = 0) ∧
        (∀ h, (openDestinations answers i s).2.count (OSCall.midiOutClose h) = 0) := by
  intro answers
  induction answers with
  | nil => intro i s; simp [openDestinations]
  | cons a rest ih =>
    intro i s
    cases a with
    | none =>
      obtain ⟨h1, h2, h3⟩ := ih (i + 1) s
      simp only [openDestinations, OpenDestination, h1, List.filterMap_cons, List.count_append]
      refine ⟨trivial, ?_, ?_⟩
      · intro h
        rw [h2 h]
        simp
      · intro h
        rw [h3 h]
        simp
    | some handle =>
      obtain ⟨h1, h2, h3⟩ := ih (i + 1)
        { s with active_handles_out := s.active_handles_out ++ [handle] }
      simp only [openDestinations, OpenDestination, h1, List.filterMap_cons, List.count_append]
      refine ⟨by simp, ?_, ?_⟩
      · intro h
        rw [h2 h]
        simp
      · intro h
        rw [h3 h]
        simp

theorem RefreshDevices_spec (os : OS) (s : State) :
    (RefreshDevices os s).1 =
        { message_queue := s.message_queue
          active_handles_in :=
            s.active_handles_in.filter (fun h => !s.handles_to_close_in.contains h) ++ os.started
          active_handles_out :=
            s.active_handles_out.filter (fun h => !s.handles_to_close_out.contains h) ++ os.opened
          handles_to_close_in := []
          handles_to_close_out := [] } ∧
      (∀ h, (RefreshDevices os s).2.count (OSCall.midiInClose h) =
        s.handles_to_close_in.count h + os.failedStarts.count h) ∧
      (∀ h, (RefreshDevices os s).2.count (OSCall.midiOutClose h) =
        s.handles_to_close_out.count h) := by
  simp only [RefreshDevices, OpenAllDevices, closeSources_spec, closeDestinations_spec]
  refine ⟨?_, ?_, ?_⟩
  · rw [(openDestinations_spec _ _ _).1, (openSources_spec _ _ _).1]
    rfl
  · intro h
    simp only [List.count_append, count_map_midiInClose, count_midiInClose_map_out,
      (openSources_spec _ _ _).2.1 h, (openDestinations_spec _ _ _).2.1 h, OS.failedStarts]
    simp [List.count_cons]
  · intro h
    simp only [List.count_append, count_map_midiOutClose, count_midiOutClose_map_in,
      (openSources_spec _ _ _).2.2 h, (openDestinations_spec _ _ _).2.2 h]
    simp [List.count_cons]

theorem run_close_counts :
    ∀ (evs : List Event) (s : State) (h : Nat),
      (run s evs).2.count (OSCall.midiInClose h) + (run s evs).1.handles_to_close_in.count h =
          s.handles_to_close_in.count h + (closeNotesIn evs).count h +
            (failedStartsOf evs).count h ∧
        (run s evs).2.count (OSCall.midiOutClose h) +
            (run s evs).1.handles_to_close_out.count h =
          s.handles_to_close_out.count h + (closeNotesOut evs).count h := by
  intro evs
  induction evs with
  | nil => intro s h; simp [run, closeNotesIn, closeNotesOut, failedStartsOf]
  | cons ev rest ih =>
    intro s h
    cases ev with
    | inProc hIn wMsg p =>
      cases wMsg with
      | MIM_DATA =>
        obtain ⟨h1, h2⟩ := ih (MidiInProc s hIn .MIM_DATA p) h
        simp only [run, step, List.nil_append, closeNotesIn, closeNotesOut, failedStartsOf]
        exact ⟨h1, h2⟩
      | MIM_CLOSE =>
        obtain ⟨h1, h2⟩ := ih (MidiInProc s hIn .MIM_CLOSE p) h
        simp only [run, step, List.nil_append, closeNotesIn, closeNotesOut, failedStartsOf]
        refine ⟨?_, h2⟩
        rw [h1]
        simp only [MidiInProc, List.count_cons]
        omega
      | other code =>
        obtain ⟨h1, h2⟩ := ih (MidiInProc s hIn (.other code) p) h
        simp only [run, step, List.nil_append, closeNotesIn, closeNotesOut, failedStartsOf]
        exact ⟨h1, h2⟩
    | outProc hOut wMsg =>
      cases wMsg with
      | MIM_DATA =>
        obtain ⟨h1, h2⟩ := ih (MidiOutProc s hOut .MIM_DATA) h
        simp only [run, step, List.nil_append, closeNotesIn, closeNotesOut, failedStartsOf]
        exact ⟨h1, h2⟩
      | MIM_CLOSE =>
        obtain ⟨h1, h2⟩ := ih (MidiOutProc s hOut .MIM_CLOSE) h
        simp only [run, step, List.nil_append, closeNotesIn, closeNotesOut, failedStartsOf]
        refine ⟨h1, ?_⟩
        rw [h2]
        simp only [MidiOutProc, List.count_cons]
        omega
      | other code =>
        obtain ⟨h1, h2⟩ := ih (MidiOutProc s hOut (.other code)) h
        simp only [run, step, List.nil_append, closeNotesIn, closeNotesOut, failedStartsOf]
        exact ⟨h1, h2⟩
    | refresh os =>
      obtain ⟨h1, h2⟩ := ih (RefreshDevices os s).1 h
      obtain ⟨hst, hin, hout⟩ := RefreshDevices_spec os s
      simp only [run, step, closeNotesIn, closeNotesOut, failedStartsOf, List.count_append]
      rw [hin h, hout h]
      have hin0 : (RefreshDevices os s).1.handles_to_close_in = [] := by rw [hst]
      have hout0 : (RefreshDevices os s).1.handles_to_close_out = [] := by rw [hst]
      rw [hin0] at h1
      rw [hout0] at h2
      simp only [List.count_nil] at h1 h2
      simp only [OS.failedStarts] at h1 ⊢
      constructor <;> omega

/-- C8, as amended (close calls of the poll-and-diff backend).  The callbacks
issue no WinMM call: `MidiInProc` / `MidiOutProc` with `MIM_CLOSE` only put the
handle on the pending stack.  Every pass of `RefreshDevices` issues one
`midiInClose` (`midiOutClose`) per entry of the pending stack, and one
`midiInClose` for each handle whose start fails in `OpenSource`; it empties
both stacks, and an input (output) handle that was pending is afterwards in
`active_handles_in` (`active_handles_out`) only if WinMM opened it anew in
that pass.  Over a sequence of events that starts with both stacks empty,
the number of `midiInClose` calls for a handle plus its entries still pending
equals the number of `MIM_CLOSE` calls of `MidiInProc` for it plus the number
of its failed starts in `OpenSource`; the number of `midiOutClose` calls plus
the entries still pending equals the number of `MIM_CLOSE` calls of
`MidiOutProc`.  So an input handle is closed at most once when its close
notifications and its failed starts together number at most 1, and an output
handle is closed at most once when its close is notified at most once. -/
theorem close_calls_accounting (s : State) (evs : List Event) (h : Nat)
    (hin : s.handles_to_close_in = []) (hout : s.handles_to_close_out = []) :
    (∀ (t : State) (x : Nat) (wMsg : WMsg) (p : Nat),
      (step t (.inProc x wMsg p)).2 = [] ∧ (step t (.outProc x wMsg)).2 = [] ∧
        MidiInProc t x .MIM_CLOSE p =
          { t with handles_to_close_in := x :: t.handles_to_close_in } ∧
        MidiOutProc t x .MIM_CLOSE =
          { t with handles_to_close_out := x :: t.handles_to_close_out }) ∧
    (∀ (t : State) (os : OS),
      (RefreshDevices os t).1.handles_to_close_in = [] ∧
        (RefreshDevices os t).1.handles_to_close_out = [] ∧
        (∀ x ∈ t.handles_to_close_in,
          x ∈ (RefreshDevices os t).1.active_handles_in → x ∈ os.started) ∧
        (∀ x ∈ t.handles_to_close_out,
          x ∈ (RefreshDevices os t).1.active_handles_out → x ∈ os.opened) ∧
        (∀ x, (RefreshDevices os t).2.count (OSCall.midiInClose x) =
          t.handles_to_close_in.count x + os.failedStarts.count x) ∧
        (∀ x, (RefreshDevices os t).2.count (OSCall.midiOutClose x) =
          t.handles_to_close_out.count x)) ∧
    ((run s evs).2.count (OSCall.midiInClose h) + (run s evs).1.handles_to_close_in.count h =
      (closeNotesIn evs).count h + (failedStartsOf evs).count h) ∧
    ((run s evs).2.count (OSCall.midiOutClose h) + (run s evs).1.handles_to_close_out.count h =
      (closeNotesOut evs).count h) ∧
    ((closeNotesIn evs).count h + (failedStartsOf evs).count h ≤ 1 →
      (run s evs).2.count (OSCall.midiInClose h) ≤ 1) ∧
    ((closeNotesOut evs).count h ≤ 1 → (run s evs).2.count (OSCall.midiOutClose h) ≤ 1) := by
  obtain ⟨h1, h2⟩ := run_close_counts evs s h
  rw [hin] at h1
  rw [hout] at h2
  simp only [List.count_nil, Nat.zero_add] at h1 h2
  refine ⟨?_, ?_, h1, h2, by omega, by omega⟩
  · intro t x wMsg p
    exact ⟨rfl, rfl, rfl, rfl⟩
  · intro t os
    obtain ⟨hst, hcin, hcout⟩ := RefreshDevices_spec os t
    refine ⟨by rw [hst], by rw [hst], ?_, ?_, hcin, hcout⟩
    · intro x hx hmem
      rw [hst] at hmem
      simp only [List.mem_append, List.mem_filter] at hmem
      rcases hmem with ⟨_, hc⟩ | hs
      · simp [hx] at hc
      · exact hs
    · intro x hx hmem
      rw [hst] at hmem
      simp only [List.mem_append, List.mem_filter] at hmem
      rcases hmem with ⟨_, hc⟩ | hs
      · simp [hx] at hc
      · exact hs

/-- One close notification per handle, then a refresh pass: each handle is
closed once. -/
theorem close_calls_accounting_witness :
    (run { State.initial with active_handles_in := [1], active_handles_out := [2] }
        [.inProc 1 .MIM_CLOSE 0, .outProc 2 .MIM_CLOSE, .refresh OS.none]).2.count
          (OSCall.midiInClose 1) ≤ 1 :=
  (close_calls_accounting
    { State.initial with active_handles_in := [1], active_handles_out := [2] }
    [.inProc 1 .MIM_CLOSE 0, .outProc 2 .MIM_CLOSE, .refresh OS.none] 1 rfl rfl).2.2.2.2.1
    (by decide)

/-- C8, the claim as stated fails: two `MIM_CLOSE` calls of `MidiInProc` for
the handle 1, then one pass of `RefreshDevices`, and `midiInClose(1)` is
issued twice.  It is issued twice as well when a pass opens the handle 1,
fails to start it and closes it in `OpenSource`, and one `MIM_CLOSE` for the
handle 1 then comes before the next pass. -/
theorem double_close_counterexample :
    (run { State.initial with active_handles_in := [1] }
        [.inProc 1 .MIM_CLOSE 0, .inProc 1 .MIM_CLOSE 0, .refresh OS.none]).2 =
      [.midiInClose 1, .midiInClose 1, .midiInGetNumDevs, .midiOutGetNumDevs] ∧
    (run { State.initial with active_handles_in := [1] }
        [.inProc 1 .MIM_CLOSE 0, .inProc 1 .MIM_CLOSE 0, .refresh OS.none]).2.count
          (OSCall.midiInClose 1) = 2 ∧
    (closeNotesIn [.refresh OS.failedStart, .inProc 1 .MIM_CLOSE 0, .refresh OS.none]).count 1
      = 1 ∧
    (run State.initial
        [.refresh OS.failedStart, .inProc 1 .MIM_CLOSE 0, .refresh OS.none]).2.count
          (OSCall.midiInClose 1) = 2 :=
  ⟨by decide, by decide, by decide, by decide⟩

/-- C4, the failing input: on the Windows backend the index functions have no
bounds test.  With an empty registry and index 0, with one handle and index 1,
and with index -1, the iterator is moved to or past `end()` (or before
`begin()`) and read there, which C++ leaves undefined: no sentinel 0 is
returned.  The bounds test of the Core MIDI backend returns 0 on the same
inputs. -/
theorem win_index_lookup_unchecked :
    MidiJackGetSourceIDAtIndex State.initial 0 = none ∧
      MidiJackGetDestinationIDAtIndex State.initial 0 = none ∧
      MidiJackGetSourceIDAtIndex { State.initial with active_handles_in := [8] } 1 = none ∧
      MidiJackGetSourceIDAtIndex { State.initial with active_handles_in := [8] } (-1) = none ∧
      MidiJackGetSourceIDAtIndex { State.initial with active_handles_in := [8] } 0 = some 8 ∧
      Xcode.idAtIndex [] 0 = 0 ∧ Xcode.idAtIndex [8] 1 = 0 ∧ Xcode.idAtIndex [8] (-1) = 0 ∧
      Xcode.idAtIndex [8] 0 = 8 :=
  ⟨by decide, by decide, by decide, by decide, by decide, by decide, by decide, by decide,
    by decide⟩

end VisualStudio

/-! ## The outbound sender -/

theorem filter_isSend_nil (calls : List Xcode.OSCall)
    (h : calls.any Xcode.OSCall.isSend = false) : calls.filter Xcode.OSCall.isSend = [] := by
  rw [List.filter_eq_nil_iff]
  intro c hc hs
  have : calls.any Xcode.OSCall.isSend = true := List.any_eq_true.mpr ⟨c, hc, hs⟩
  rw [h] at this
  cases this

theorem xcode_packetBytes_and (msg : Nat) :
    Xcode.packetBytes msg =
      [(msg >>> 32) &&& 0xFF, (msg >>> 40) &&& 0xFF, (msg >>> 48) &&& 0xFF] := by
  simp only [Xcode.packetBytes, and_0xFF]

/-- C6, as amended (what `MidiJackSendMessage` transmits).  WinMM backend: for
every message, whether or not its low 32 bits name a handle of
`active_handles_out`, exactly one `midiOutShortMsg` is issued, to the handle
given by the low 32 bits, with the packet `msg >> 32` whose three low bytes are
`(msg>>32)&0xFF`, `(msg>>40)&0xFF`, `(msg>>48)&0xFF`; the globals are left as
they were.  Core MIDI backend: the queue is never changed, and the globals are
unchanged when no reset is pending; when `ResetIfRequired` fails nothing is
sent; when it does not fail, nothing is sent if `MIDIObjectFindByUniqueID`
finds no object, and exactly one `MIDISend` to the object found, carrying
those three bytes, is issued otherwise. -/
theorem send_message_transmits (ws : VisualStudio.State) (os : Xcode.OS) (s : Xcode.State)
    (msg : Nat) :
    ((VisualStudio.MidiJackSendMessage ws msg).calls =
        [.midiOutShortMsg (VisualStudio.DeviceIDToOutputHandle (msg % 2 ^ 32))
          (VisualStudio.sendPacket msg)] ∧
      (VisualStudio.MidiJackSendMessage ws msg).state = ws ∧
      VisualStudio.sendPacket msg % 256 = (msg >>> 32) &&& 0xFF ∧
      (VisualStudio.sendPacket msg >>> 8) % 256 = (msg >>> 40) &&& 0xFF ∧
      (VisualStudio.sendPacket msg >>> 16) % 256 = (msg >>> 48) &&& 0xFF) ∧
    (Xcode.MidiJackSendMessage os s msg).state.message_queue = s.message_queue ∧
    (s.reset_required = false → (Xcode.MidiJackSendMessage os s msg).state = s) ∧
    ((Xcode.ResetIfRequired os s).ret = false →
      (Xcode.MidiJackSendMessage os s msg).calls.filter Xcode.OSCall.isSend = []) ∧
    ((Xcode.ResetIfRequired os s).ret = true →
      ((os.findByUniqueID (toSInt32 msg) = none ∨ os.findByUniqueID (toSInt32 msg) = some 0) →
        (Xcode.MidiJackSendMessage os s msg).calls.filter Xcode.OSCall.isSend = []) ∧
      (∀ object, os.findByUniqueID (toSInt32 msg) = some object → object ≠ 0 →
        (Xcode.MidiJackSendMessage os s msg).calls.filter Xcode.OSCall.isSend =
          [.MIDISend (Xcode.ResetIfRequired os s).state.midi_port_out object
            [(msg >>> 32) &&& 0xFF, (msg >>> 40) &&& 0xFF, (msg >>> 48) &&& 0xFF]])) := by
  have hnosend := filter_isSend_nil _ (Xcode.ResetIfRequired_no_send os s)
  refine ⟨⟨rfl, rfl, ?_, ?_, ?_⟩, ?_, ?_, ?_, ?_⟩
  · simp only [VisualStudio.sendPacket, and_0xFF, Nat.shiftRight_eq_div_pow, Nat.reducePow]
    omega
  · simp only [VisualStudio.sendPacket, and_0xFF, Nat.shiftRight_eq_div_pow, Nat.reducePow]
    omega
  · simp only [VisualStudio.sendPacket, and_0xFF, Nat.shiftRight_eq_div_pow, Nat.reducePow]
    omega
  · unfold Xcode.MidiJackSendMessage
    simp only []
    split <;> exact Xcode.ResetIfRequired_queue os s
  · intro hr
    unfold Xcode.MidiJackSendMessage
    rw [Xcode.ResetIfRequired_idle os s hr]
    rfl
  · intro hret
    simp only [Xcode.MidiJackSendMessage, hret, Bool.not_false, if_true]
    exact hnosend
  · intro hret
    simp only [Xcode.MidiJackSendMessage, hret, Bool.not_true, Bool.false_eq_true, if_false,
      List.filter_append, hnosend, List.nil_append]
    constructor
    · intro hfind
      rcases hfind with hf | hf <;> simp [Xcode.SendMessage, hf, Xcode.OSCall.isSend]
    · intro object hf hne
      simp [Xcode.SendMessage, hf, hne, Xcode.OSCall.isSend, xcode_packetBytes_and]

/-- The send of a note-on to the destination with unique ID 21, which Core MIDI
finds as object 5: one `MIDISend` on the output port 6 with the three bytes. -/
theorem send_message_transmits_witness :
    (Xcode.MidiJackSendMessage Xcode.OS.up Xcode.State.initial
        (21 + 0x90 * 2 ^ 32 + 0x40 * 2 ^ 40 + 0x7F * 2 ^ 48)).calls.filter Xcode.OSCall.isSend =
      [.MIDISend 6 5 [0x90, 0x40, 0x7F]] :=
  ((send_message_transmits VisualStudio.State.initial Xcode.OS.up Xcode.State.initial
    (21 + 0x90 * 2 ^ 32 + 0x40 * 2 ^ 40 + 0x7F * 2 ^ 48)).2.2.2.2 (by decide)).2 5 (by decide)
    (by decide)

/-- C6, the claim as stated fails on the WinMM backend: with
`active_handles_out` empty, so that the identifier 5 names no output in the
registry, `MidiJackSendMessage` still issues `midiOutShortMsg` for the handle 5. -/
theorem send_unresolved_counterexample :
    VisualStudio.DeviceIDToOutputHandle ((5 + 0x90 * 2 ^ 32 + 0x40 * 2 ^ 40 + 0x7F * 2 ^ 48) % 2 ^ 32)
        ∉ VisualStudio.State.initial.active_handles_out ∧
      (VisualStudio.MidiJackSendMessage VisualStudio.State.initial
          (5 + 0x90 * 2 ^ 32 + 0x40 * 2 ^ 40 + 0x7F * 2 ^ 48)).calls =
        [.midiOutShortMsg 5 0x7F4090] :=
  ⟨by decide, by decide⟩

end MidiJack
